import Mathlib

/-!
Verification development for the `telegram_bitte_bot` repository
(`src/chatbot.py`, `src/final.py`, `src/swap.py`).

Text is modelled as `List Char` (Python `str`).  Python's `json` values are
modelled by the inductive `Json`; `json.loads` by the executable `jsonParse`.
Python dicts appear in two roles: JSON objects are association lists over
string keys with last-wins insertion (`setKv`), and the parser's
`tool_results` dict is an association list over `Json` keys kept newest
first, so first-match lookup is the final dict lookup.  Python exceptions
are modelled by `Except PyExn`; an exception caught by a handler is matched
on, an uncaught one propagates through the monad.
-/

/-- Turn a Lean string literal into the `List Char` text model. -/
def ofStr (s : String) : List Char := s.toList

/-- The ASCII whitespace stripped by Python's `str.strip()` (and matched by
the regex class `\s`): space, tab, newline, carriage return, vertical tab,
form feed.  (Unicode-only whitespace is outside the model.) -/
def isPySpace (c : Char) : Bool :=
  c = ' ' || c = '\t' || c = '\n' || c = '\r' || c = '\x0b' || c = '\x0c'

/-- Python `str.strip()`: drop leading and trailing whitespace. -/
def pyStrip (cs : List Char) : List Char :=
  ((cs.dropWhile isPySpace).reverse.dropWhile isPySpace).reverse

/-- Python `str.upper()` restricted to ASCII. -/
def pyUpper (cs : List Char) : List Char := cs.map Char.toUpper

/-- Python `str.lower()` restricted to ASCII. -/
def pyLower (cs : List Char) : List Char := cs.map Char.toLower

/-- Python `str.split('\n')`: always at least one piece, empty pieces kept. -/
def splitOnNl : List Char → List (List Char)
  | [] => [[]]
  | c :: r =>
    if c = '\n' then [] :: splitOnNl r
    else
      match splitOnNl r with
      | [] => [[c]]
      | h :: t => (c :: h) :: t

/-- Python `needle in haystack` on strings (substring containment). -/
def isPrefixList : List Char → List Char → Bool
  | [], _ => true
  | _ :: _, [] => false
  | a :: as, b :: bs => a == b && isPrefixList as bs

/-- Substring test: `containsSeq n h` is Python's `n in h`. -/
def containsSeq (n : List Char) : List Char → Bool
  | [] => isPrefixList n []
  | c :: t => isPrefixList n (c :: t) || containsSeq n t

/-- Python `str.isdigit()` restricted to ASCII: nonempty and all digits. -/
def pyIsDigit (cs : List Char) : Bool :=
  !cs.isEmpty && cs.all Char.isDigit

/-- Value of a string of ASCII digits, i.e. Python `int(s)` on a digit string. -/
def digitsToNat (cs : List Char) : Nat :=
  cs.foldl (fun n c => 10 * n + (c.toNat - 48)) 0

/-! ## The JSON value model -/

/-- Values produced by `json.loads`.  Integral numbers are `num`; numbers
with a fractional part or exponent (Python floats) keep their source token
in `fnum` (the special tokens `NaN`/`Infinity`/`-Infinity`, which
`json.loads` accepts, are also `fnum`). -/
inductive Json where
  | null : Json
  | bool (b : Bool) : Json
  | num (n : Int) : Json
  | fnum (raw : List Char) : Json
  | str (s : List Char) : Json
  | arr (xs : List Json) : Json
  | obj (kvs : List (List Char × Json)) : Json
  deriving Repr

mutual

/-- Structural equality of JSON values (models Python `==` on the decoded
values; the cross-type numeric equalities `1 == 1.0 == True` of Python are
outside the model). -/
def jsonEq : Json → Json → Bool
  | .null, .null => true
  | .bool a, .bool b => a == b
  | .num a, .num b => a == b
  | .fnum a, .fnum b => a == b
  | .str a, .str b => a == b
  | .arr a, .arr b => jsonEqList a b
  | .obj a, .obj b => jsonEqKvs a b
  | _, _ => false

def jsonEqList : List Json → List Json → Bool
  | [], [] => true
  | a :: as, b :: bs => jsonEq a b && jsonEqList as bs
  | _, _ => false

def jsonEqKvs : List (List Char × Json) → List (List Char × Json) → Bool
  | [], [] => true
  | (k, v) :: as, (k', v') :: bs => k == k' && jsonEq v v' && jsonEqKvs as bs
  | _, _ => false

end

/-- Python `d[k]` presence and value on a JSON object: first matching key (keys are
unique after `setKv`-based construction). -/
def getKv (kvs : List (List Char × Json)) (k : List Char) : Option Json :=
  match kvs with
  | [] => none
  | (k', v) :: t => if k' = k then some v else getKv t k

/-- Python dict write `d[k] = v`: replace the value at an existing key in
place, otherwise append the new pair at the end. -/
def setKv (kvs : List (List Char × Json)) (k : List Char) (v : Json) :
    List (List Char × Json) :=
  match kvs with
  | [] => [(k, v)]
  | (k', v') :: t => if k' = k then (k', v) :: t else (k', v') :: setKv t k v

/-- Python `dict.get(k)` on a JSON object (and `none` on anything else; the callers
below only use it on objects). -/
def objGet (j : Json) (k : List Char) : Option Json :=
  match j with
  | .obj kvs => getKv kvs k
  | _ => none

/-- Python `dict.get(k, d)` on a JSON object. -/
def objGetD (j : Json) (k : List Char) (d : Json) : Json :=
  (objGet j k).getD d

/-- The update `{**obj, k: v}` / `obj[k] = v` on a JSON object; identity on
non-objects (never reached on them below). -/
def objSet (j : Json) (k : List Char) (v : Json) : Json :=
  match j with
  | .obj kvs => .obj (setKv kvs k v)
  | _ => j

def Json.isObj : Json → Prop
  | .obj _ => True
  | _ => False

instance : DecidablePred Json.isObj := fun j => by
  cases j <;> simp [Json.isObj] <;> infer_instance

/-- Python truthiness of a decoded JSON value (`if x:`).  A float token is
falsy exactly when it denotes 0.0: its mantissa (the part before any
exponent) has digits but no nonzero digit; `NaN` and the infinities are
truthy.  (A nonzero token so small that the binary float underflows to 0.0
stays truthy here — float-precision corners are outside the model.) -/
def pyTruthy : Json → Bool
  | .null => false
  | .bool b => b
  | .num n => n != 0
  | .fnum raw =>
    (raw.takeWhile (fun c => !(c = 'e' || c = 'E'))).any (fun c => c.isDigit && c != '0')
      || raw.all (fun c => !c.isDigit)
  | .str s => !s.isEmpty
  | .arr xs => !xs.isEmpty
  | .obj kvs => !kvs.isEmpty

/-- Hashability of a decoded JSON value: using a list or dict as a dict
key raises `TypeError`. -/
def jsonHashable : Json → Bool
  | .arr _ => false
  | .obj _ => false
  | _ => true

/-! ## `json.loads` -/

/-- JSON whitespace (the characters `json.loads` skips between tokens). -/
def isJws (c : Char) : Bool :=
  c = ' ' || c = '\t' || c = '\n' || c = '\r'

/-- Value of one hex digit. -/
def hexDigitVal (c : Char) : Option Nat :=
  if c.isDigit then some (c.toNat - 48)
  else if 'a' ≤ c ∧ c ≤ 'f' then some (c.toNat - 87)
  else if 'A' ≤ c ∧ c ≤ 'F' then some (c.toNat - 55)
  else none

/-- Value of a `\uXXXX` escape's four hex digits. -/
def hex4 (a b c d : Char) : Option Nat :=
  match hexDigitVal a, hexDigitVal b, hexDigitVal c, hexDigitVal d with
  | some va, some vb, some vc, some vd => some (16 * (16 * (16 * va + vb) + vc) + vd)
  | _, _, _, _ => none

/-- Single-character escapes of JSON strings. -/
def escChar (c : Char) : Option Char :=
  if c = '"' then some '"'
  else if c = '\\' then some '\\'
  else if c = '/' then some '/'
  else if c = 'b' then some '\x08'
  else if c = 'f' then some '\x0c'
  else if c = 'n' then some '\n'
  else if c = 'r' then some '\r'
  else if c = 't' then some '\t'
  else none

/-- Decode a JSON string body (the input starts just after the opening
quote); returns the decoded characters and the input after the closing
quote.  Surrogate pairs in `\uXXXX` escapes are combined; a lone surrogate
is rejected (Lean's `Char` cannot carry one — the only divergence from
`json.loads`, which keeps it as a lone surrogate code unit). -/
def parseJStr : Nat → List Char → Option (List Char × List Char)
  | 0, _ => none
  | fuel + 1, cs =>
    match cs with
    | [] => none
    | '"' :: r => some ([], r)
    | '\\' :: esc =>
      match esc with
      | 'u' :: a :: b :: c :: d :: r =>
        match hex4 a b c d with
        | none => none
        | some n =>
          if 0xD800 ≤ n ∧ n ≤ 0xDBFF then
            match r with
            | '\\' :: 'u' :: a2 :: b2 :: c2 :: d2 :: r2 =>
              match hex4 a2 b2 c2 d2 with
              | some m =>
                if 0xDC00 ≤ m ∧ m ≤ 0xDFFF then
                  match parseJStr fuel r2 with
                  | some (s, rest) =>
                    some (Char.ofNat (0x10000 + (n - 0xD800) * 0x400 + (m - 0xDC00)) :: s, rest)
                  | none => none
                else none
              | none => none
            | _ => none
          else if 0xDC00 ≤ n ∧ n ≤ 0xDFFF then none
          else
            match parseJStr fuel r with
            | some (s, rest) => some (Char.ofNat n :: s, rest)
            | none => none
      | e :: r =>
        match escChar e with
        | none => none
        | some ec =>
          match parseJStr fuel r with
          | some (s, rest) => some (ec :: s, rest)
          | none => none
      | [] => none
    | c :: r =>
      if c.toNat < 0x20 then none
      else
        match parseJStr fuel r with
        | some (s, rest) => some (c :: s, rest)
        | none => none

/-- The integral-number constructor: `-`? applied to the digit value. -/
def intJson (sgn : Bool) (ip : List Char) : Json :=
  .num (if sgn then -(digitsToNat ip : Int) else (digitsToNat ip : Int))

/-- Raw source token of a float, reassembled for `Json.fnum`. -/
def mkRaw (sgn : Bool) (ip fp ex : List Char) : List Char :=
  (if sgn then ['-'] else []) ++ ip ++ (if fp.isEmpty then [] else '.' :: fp) ++ ex

/-- The number value: an int when there is no fraction and no exponent, a
float (kept as its token) otherwise. -/
def numJson (sgn : Bool) (ip fp ex : List Char) : Json :=
  if fp.isEmpty ∧ ex.isEmpty then intJson sgn ip else .fnum (mkRaw sgn ip fp ex)

/-- Number scanning after the optional sign, mirroring the regex `json`
uses: `(-?(?:0|[1-9]\\d*))(\\.\\d+)?([eE][-+]?\\d+)?`, plus the `-Infinity`
token.  The match is maximal-munch per group; a malformed tail (e.g. `1.`
or `1e`) simply ends the number before it, exactly as the regex does. -/
def parseNumberCore (sgn : Bool) (cs1 : List Char) : Option (Json × List Char) :=
  if sgn ∧ cs1.take 8 = ofStr "Infinity" then
    some (.fnum (ofStr "-Infinity"), cs1.drop 8)
  else
    match cs1 with
    | [] => none
    | c0 :: cr =>
      if !c0.isDigit then none
      else
        let q := if c0 = '0' then (['0'], cr) else cs1.span Char.isDigit
        let ip := q.1
        let r1 := q.2
        let fq := match r1 with
          | '.' :: r2 =>
            let s := r2.span Char.isDigit
            if s.1.isEmpty then ([], r1) else (s.1, s.2)
          | _ => ([], r1)
        let r3 := fq.2
        let eq' := match r3 with
          | e :: r4 =>
            if e = 'e' ∨ e = 'E' then
              match r4 with
              | s :: r5 =>
                if s = '+' ∨ s = '-' then
                  let d := r5.span Char.isDigit
                  if d.1.isEmpty then ([], r3) else (e :: s :: d.1, d.2)
                else
                  let d := r4.span Char.isDigit
                  if d.1.isEmpty then ([], r3) else (e :: d.1, d.2)
              | [] => ([], r3)
            else ([], r3)
          | [] => ([], r3)
        some (numJson sgn ip fq.1 eq'.1, eq'.2)

/-- Number scanning with the optional leading minus. -/
def parseNumber (cs : List Char) : Option (Json × List Char) :=
  match cs with
  | '-' :: t => parseNumberCore true t
  | _ => parseNumberCore false cs

mutual

/-- One JSON value (after optional leading whitespace) and the remaining
input; the core of `json.loads`. -/
def parseJVal : Nat → List Char → Option (Json × List Char)
  | 0, _ => none
  | fuel + 1, cs0 =>
    match cs0.dropWhile isJws with
    | [] => none
    | '"' :: r =>
      match parseJStr (r.length + 1) r with
      | some (s, rest) => some (.str s, rest)
      | none => none
    | '\x7b' :: r =>
      match r.dropWhile isJws with
      | '\x7d' :: rest => some (.obj [], rest)
      | _ =>
        match parseObjItems fuel r with
        | some (kvs, rest) =>
          some (.obj (kvs.foldl (fun acc kv => setKv acc kv.1 kv.2) []), rest)
        | none => none
    | '[' :: r =>
      match r.dropWhile isJws with
      | ']' :: rest => some (.arr [], rest)
      | _ =>
        match parseArrItems fuel r with
        | some (xs, rest) => some (.arr xs, rest)
        | none => none
    | c :: r =>
      if c = 't' then
        if r.take 3 = ofStr "rue" then some (.bool true, r.drop 3) else none
      else if c = 'f' then
        if r.take 4 = ofStr "alse" then some (.bool false, r.drop 4) else none
      else if c = 'n' then
        if r.take 3 = ofStr "ull" then some (.null, r.drop 3) else none
      else if c = 'N' then
        if r.take 2 = ofStr "aN" then some (.fnum (ofStr "NaN"), r.drop 2) else none
      else if c = 'I' then
        if r.take 7 = ofStr "nfinity" then some (.fnum (ofStr "Infinity"), r.drop 7) else none
      else parseNumber (c :: r)

/-- Comma-separated array items up to the closing bracket. -/
def parseArrItems : Nat → List Char → Option (List Json × List Char)
  | 0, _ => none
  | fuel + 1, cs =>
    match parseJVal fuel cs with
    | none => none
    | some (j, rest) =>
      match rest.dropWhile isJws with
      | ',' :: r2 =>
        match parseArrItems fuel r2 with
        | some (js, r3) => some (j :: js, r3)
        | none => none
      | ']' :: r2 => some ([j], r2)
      | _ => none

/-- Comma-separated `"key": value` members up to the closing brace. -/
def parseObjItems : Nat → List Char → Option (List (List Char × Json) × List Char)
  | 0, _ => none
  | fuel + 1, cs =>
    match cs.dropWhile isJws with
    | '"' :: r =>
      match parseJStr (r.length + 1) r with
      | none => none
      | some (k, r1) =>
        match r1.dropWhile isJws with
        | ':' :: r2 =>
          match parseJVal fuel r2 with
          | none => none
          | some (v, r3) =>
            match r3.dropWhile isJws with
            | ',' :: r4 =>
              match parseObjItems fuel r4 with
              | some (kvs, r5) => some ((k, v) :: kvs, r5)
              | none => none
            | '\x7d' :: r4 => some ([(k, v)], r4)
            | _ => none
        | _ => none
    | _ => none

end

/-- Model of `json.loads`: one value, with only whitespace allowed after it. -/
def jsonParse (cs : List Char) : Option Json :=
  match parseJVal (cs.length + 2) cs with
  | some (j, rest) => if (rest.dropWhile isJws).isEmpty then some j else none
  | none => none

/-! ## The streaming response parser (`parse_streaming_response`,
`src/final.py` lines 510–585; `src/swap.py` lines 91–173 is the same
algorithm minus logging). -/

/-- Python exceptions that the modelled code can raise or catch. -/
inductive PyExn where
  | jsonDecode : PyExn
  | keyError : PyExn
  | valueError : PyExn
  | typeError : PyExn
  | attributeError : PyExn
  | overflowError : PyExn
  deriving DecidableEq, Repr

/-- Accumulator of the line loop: the concatenated `0:` text, the `9:` tool
calls in encounter order, and the `a:` results dict (newest first, keyed by
the `toolCallId` value). -/
structure StreamAcc where
  content : List Char
  calls : List Json
  results : List (Json × Json)
  deriving Repr

/-- One iteration of the line loop.  Malformed JSON on a recognized prefix
is caught (`except (json.JSONDecodeError, KeyError)`) and skipped; an `a:`
payload that is valid JSON but not an object raises `AttributeError` at
`.get('toolCallId')`, which that handler does not catch. -/
def stepLine (acc : StreamAcc) (rawLine : List Char) : Except PyExn StreamAcc :=
  let line := pyStrip rawLine
  if line.isEmpty then .ok acc
  else if line.take 2 = ofStr "0:" then
    match jsonParse (line.drop 2) with
    | some (.str s) => .ok { acc with content := acc.content ++ s }
    | some _ => .ok acc
    | none => .ok acc
  else if line.take 2 = ofStr "9:" then
    match jsonParse (line.drop 2) with
    | some j => .ok { acc with calls := acc.calls ++ [j] }
    | none => .ok acc
  else if line.take 2 = ofStr "a:" then
    match jsonParse (line.drop 2) with
    | some j =>
      match j with
      | .obj kvs =>
        match objGet (.obj kvs) (ofStr "toolCallId") with
        | some v =>
          if pyTruthy v then
            if jsonHashable v then .ok { acc with results := (v, .obj kvs) :: acc.results }
            else .error .typeError
          else .ok acc
        | none => .ok acc
      | _ => .error .attributeError
    | none => .ok acc
  else .ok acc

/-- The `for line in lines:` loop with exception propagation. -/
def runLines (acc : StreamAcc) : List (List Char) → Except PyExn StreamAcc
  | [] => .ok acc
  | l :: ls =>
    match stepLine acc l with
    | .ok acc' => runLines acc' ls
    | .error e => .error e

/-- Lookup `tool_results[tool_call_id]` guarded by `tool_call_id in tool_results`
(`none` when the call has no `toolCallId`, i.e. `.get` returned `None`). -/
def lookupResult (rs : List (Json × Json)) : Option Json → Option Json
  | none => none
  | some v => (rs.find? (fun p => jsonEq p.1 v)).map (·.2)

/-- Merge one tool call with its result: `{**tool_call, 'result': …,
'state': 'completed'}` on a hit, `{**tool_call, 'state': 'pending'}`
otherwise; a non-dict call raises `AttributeError` at
`tool_call.get('toolCallId')` and an unhashable `toolCallId` raises
`TypeError` at the `in tool_results` test (both uncaught). -/
def mergeOne (rs : List (Json × Json)) (tc : Json) : Except PyExn Json :=
  match tc with
  | .obj kvs =>
    match objGet (.obj kvs) (ofStr "toolCallId") with
    | some v =>
      if jsonHashable v then
        match lookupResult rs (some v) with
        | some rd =>
          .ok (objSet (objSet (.obj kvs) (ofStr "result")
                  (objGetD rd (ofStr "result") (.obj [])))
                (ofStr "state") (.str (ofStr "completed")))
        | none => .ok (objSet (.obj kvs) (ofStr "state") (.str (ofStr "pending")))
      else .error .typeError
    | none => .ok (objSet (.obj kvs) (ofStr "state") (.str (ofStr "pending")))
  | _ => .error .attributeError

/-- The merge loop over the collected tool calls. -/
def mergeAll (rs : List (Json × Json)) : List Json → Except PyExn (List Json)
  | [] => .ok []
  | c :: cs =>
    match mergeOne rs c with
    | .ok t =>
      match mergeAll rs cs with
      | .ok ts => .ok (t :: ts)
      | .error e => .error e
    | .error e => .error e

/-- The synthesized assistant message (its random `uuid.uuid4()` id is a
parameter of the model). -/
def assistantMessage (uuid : List Char) (content : List Char) (tools : List Json) : Json :=
  .obj [(ofStr "id", .str (ofStr "msg-" ++ uuid)),
        (ofStr "role", .str (ofStr "assistant")),
        (ofStr "content", .str content),
        (ofStr "parts", .arr [.obj [(ofStr "type", .str (ofStr "text")),
                                    (ofStr "text", .str content)]]),
        (ofStr "toolInvocations", .arr tools),
        (ofStr "annotations", .arr [.obj [(ofStr "agentId", .str (ofStr "bitte-defi"))]])]

/-- The value returned by `parse_streaming_response` on success (the
`{"error": …}` return of the outer `except` is the `Except.error` case). -/
structure ParseResult where
  assistantMsg : Option Json
  content : List Char
  toolInvocations : List Json
  deriving Repr

/-- The body of `parse_streaming_response` after `split('\n')`. -/
def parse_from_lines (uuid : List Char) (lines : List (List Char)) :
    Except PyExn ParseResult :=
  match runLines ⟨[], [], []⟩ lines with
  | .error e => .error e
  | .ok acc =>
    match mergeAll acc.results acc.calls with
    | .error e => .error e
    | .ok tools =>
      let msg := if acc.content.isEmpty ∧ tools.isEmpty then none
                 else some (assistantMessage uuid acc.content tools)
      .ok ⟨msg, acc.content, tools⟩

/-- The function `parse_streaming_response(response_text)` of `src/final.py`. -/
def parse_streaming_response (uuid : List Char) (body : List Char) :
    Except PyExn ParseResult :=
  parse_from_lines uuid (splitOnNl (pyStrip body))

/-! ### Declarative per-line extraction (what the spec says each line kind
contributes), used to state the merge and idempotence claims. -/

/-- The textual delta a line contributes: its stripped form must carry the
`0:` prefix and a JSON-string payload. -/
def line_delta (l : List Char) : Option (List Char) :=
  let s := pyStrip l
  if s.take 2 = ofStr "0:" then
    match jsonParse (s.drop 2) with
    | some (.str t) => some t
    | _ => none
  else none

/-- The tool-call record a line contributes: stripped `9:` prefix with a
JSON payload. -/
def line_call (l : List Char) : Option Json :=
  let s := pyStrip l
  if s.take 2 = ofStr "9:" then jsonParse (s.drop 2) else none

/-- The tool-result entry a line contributes: stripped `a:` prefix with a
JSON-object payload whose `toolCallId` is present and truthy. -/
def line_result (l : List Char) : Option (Json × Json) :=
  let s := pyStrip l
  if s.take 2 = ofStr "a:" then
    match jsonParse (s.drop 2) with
    | some (.obj kvs) =>
      match objGet (.obj kvs) (ofStr "toolCallId") with
      | some v => if pyTruthy v then some (v, .obj kvs) else none
      | none => none
    | _ => none
  else none

/-- All tool calls of a stream, in encounter order. -/
def stream_calls (lines : List (List Char)) : List Json :=
  lines.filterMap line_call

/-- The tool-results dict of a stream, newest entry first. -/
def stream_results (lines : List (List Char)) : List (Json × Json) :=
  (lines.filterMap line_result).reverse

/-- Total merge of one tool call (defined on objects; `mergeOne` agrees and
errors elsewhere). -/
def mergeTotal (rs : List (Json × Json)) (tc : Json) : Json :=
  match lookupResult rs (objGet tc (ofStr "toolCallId")) with
  | some rd =>
    objSet (objSet tc (ofStr "result") (objGetD rd (ofStr "result") (.obj [])))
      (ofStr "state") (.str (ofStr "completed"))
  | none => objSet tc (ofStr "state") (.str (ofStr "pending"))

/-- A line the spec calls bad: unrecognized prefix, or a recognized prefix
whose payload is not valid JSON. -/
def bad_stream_line (l : List Char) : Bool :=
  let s := pyStrip l
  if s.take 2 = ofStr "0:" ∨ s.take 2 = ofStr "9:" ∨ s.take 2 = ofStr "a:" then
    (jsonParse (s.drop 2)).isNone
  else true

/-! ## The token-preference parser (`parse_token_preference`,
`src/chatbot.py` lines 192–236). -/

/-- The closed token vocabulary of the preference parser. -/
inductive Tok where
  | USDC : Tok
  | ETH : Tok
  | NATIVE : Tok
  deriving DecidableEq, Repr

/-- An allocation: the Python dict from token to integer percentage, in
insertion order. -/
def Alloc := List (Tok × Nat)

/-- One attempted match of `(\d+)%?\s+(USDC|ETH|NATIVE)` anchored at the
start of the input.  `\d+` and `\s+` are maximal runs here: giving back a
digit would put a digit where `%?\s+` must match, and giving back a space
would put a space where the alternation must match, so the backtracking
engine never succeeds with less. -/
def matchP1 (cs : List Char) : Option ((List Char × Tok) × List Char) :=
  let d := cs.span Char.isDigit
  if d.1.isEmpty then none
  else
    let r2 := match d.2 with
      | '%' :: t => t
      | _ => d.2
    let w := r2.span isPySpace
    if w.1.isEmpty then none
    else if w.2.take 4 = ofStr "USDC" then some ((d.1, .USDC), w.2.drop 4)
    else if w.2.take 3 = ofStr "ETH" then some ((d.1, .ETH), w.2.drop 3)
    else if w.2.take 6 = ofStr "NATIVE" then some ((d.1, .NATIVE), w.2.drop 6)
    else none

/-- Model of `re.findall` scanning for pattern 1: try a match at each position,
resuming after the matched text. -/
def findAll1 : Nat → List Char → List (List Char × Tok)
  | 0, _ => []
  | _, [] => []
  | fuel + 1, c :: rest =>
    match matchP1 (c :: rest) with
    | some (g, r) => g :: findAll1 fuel r
    | none => findAll1 fuel rest

/-- One attempted match of `(USDC|ETH|NATIVE)\s+(\d+)` anchored at the
start of the input, already swapped to `(digits, token)` order as the list
comprehension does. -/
def matchP2 (cs : List Char) : Option ((List Char × Tok) × List Char) :=
  let t := if cs.take 4 = ofStr "USDC" then some (Tok.USDC, cs.drop 4)
    else if cs.take 3 = ofStr "ETH" then some (Tok.ETH, cs.drop 3)
    else if cs.take 6 = ofStr "NATIVE" then some (Tok.NATIVE, cs.drop 6)
    else none
  match t with
  | none => none
  | some (tok, r1) =>
    let w := r1.span isPySpace
    if w.1.isEmpty then none
    else
      let d := w.2.span Char.isDigit
      if d.1.isEmpty then none else some ((d.1, tok), d.2)

/-- Model of `re.findall` scanning for pattern 2. -/
def findAll2 : Nat → List Char → List (List Char × Tok)
  | 0, _ => []
  | _, [] => []
  | fuel + 1, c :: rest =>
    match matchP2 (c :: rest) with
    | some (g, r) => g :: findAll2 fuel r
    | none => findAll2 fuel rest

/-- The matches `parse_token_preference` loops over: pattern 1 first,
pattern 2 (swapped) only when pattern 1 found nothing. -/
def matches_of (up : List Char) : List (List Char × Tok) :=
  let m1 := findAll1 (up.length + 1) up
  if m1.isEmpty then findAll2 (up.length + 1) up else m1

/-- The update `token_allocation[token] += percentage` /
`token_allocation[token] = percentage`. -/
def allocAdd (a : Alloc) (t : Tok) (p : Nat) : Alloc :=
  match a with
  | [] => [(t, p)]
  | (t', q) :: rest => if t' = t then (t', q + p) :: rest else (t', q) :: allocAdd rest t p

/-- The accumulation loop over the matches: allocation dict and running
total. -/
def allocLoop (ms : List (List Char × Tok)) : Alloc × Nat :=
  ms.foldl (fun acc m => (allocAdd acc.1 m.2 (digitsToNat m.1), acc.2 + digitsToNat m.1))
    ([], 0)

/-- The two `ValueError`s `parse_token_preference` can raise.  The
`totalExceeds` payload is the offending total that the error message
interpolates. -/
inductive TPErr where
  | couldNotParse : TPErr
  | totalExceeds (total : Nat) : TPErr
  deriving DecidableEq, Repr

/-- The function `parse_token_preference(preference)` of `src/chatbot.py`. -/
def parse_token_preference (pref : List Char) : Except TPErr Alloc :=
  let p := pyStrip (pyUpper pref)
  if p = ofStr "NATIVE" then .ok [(.NATIVE, 100)]
  else if p = ofStr "USDC" then .ok [(.USDC, 100)]
  else if p = ofStr "ETH" then .ok [(.ETH, 100)]
  else
    let ms := matches_of p
    if ms.isEmpty then .error .couldNotParse
    else
      let at' := allocLoop ms
      if at'.2 > 100 then .error (.totalExceeds at'.2)
      else if at'.2 < 100 then .ok (allocAdd at'.1 .NATIVE (100 - at'.2))
      else .ok at'.1

/-- Sum of the percentages of an allocation. -/
def sumAlloc (a : Alloc) : Nat := (a.map Prod.snd).sum

/-- Value stored for a token (0 when absent), i.e. `d.get(t, 0)`. -/
def allocVal : Alloc → Tok → Nat
  | [], _ => 0
  | (t', q) :: rest, t => if t' = t then q else allocVal rest t

/-- The percentage a token is given explicitly by a match list (duplicate
mentions summed). -/
def explicitSum (ms : List (List Char × Tok)) (t : Tok) : Nat :=
  (ms.filterMap (fun m => if m.2 = t then some (digitsToNat m.1) else none)).sum

/-- The total of all matched percentages. -/
def matchTotal (ms : List (List Char × Tok)) : Nat :=
  (ms.map (fun m => digitsToNat m.1)).sum

/-! ## The Twitter scoring flow (`analyze_twitter` and
`parse_twitter_scoring_response`, `src/final.py` lines 587–677;
`src/chatbot.py` lines 262–355 is the same logic). -/

/-- Python `x in y` for the containment tests of the scoring parser:
key test on a dict, substring test on a string, membership on a list,
`TypeError` on anything else. -/
def pyContains (j : Json) (k : List Char) : Except PyExn Bool :=
  match j with
  | .obj kvs => .ok ((getKv kvs k).isSome)
  | .str s => .ok (containsSeq k s)
  | .arr xs => .ok (xs.any (jsonEq (.str k)))
  | _ => .error .typeError

/-- Python `x[k]` with a string key: dict lookup (`KeyError` when absent),
`TypeError` on any other decoded value. -/
def jsonIndex (j : Json) (k : List Char) : Except PyExn Json :=
  match j with
  | .obj kvs =>
    match getKv kvs k with
    | some v => .ok v
    | none => .error .keyError
  | _ => .error .typeError

/-- Truncation toward zero of a float source token (Python `int(float)`;
the model computes the exact decimal truncation, ignoring binary-float
rounding and overflow-to-infinity of the underlying `float`, which are
immaterial for the integral scores this code handles). -/
def floatTruncVal (raw : List Char) : Int :=
  let p := match raw with
    | '-' :: t => (true, t)
    | _ => (false, raw)
  let ipr := p.2.span Char.isDigit
  let fpr := match ipr.2 with
    | '.' :: t => t.span Char.isDigit
    | _ => ([], ipr.2)
  let ex : Int := match fpr.2 with
    | e :: t =>
      if e = 'e' ∨ e = 'E' then
        match t with
        | '-' :: d => -((digitsToNat (d.takeWhile Char.isDigit) : Int))
        | '+' :: d => (digitsToNat (d.takeWhile Char.isDigit) : Int)
        | d => (digitsToNat (d.takeWhile Char.isDigit) : Int)
      else 0
    | [] => 0
  let n := digitsToNat (ipr.1 ++ fpr.1)
  let shift := ex - fpr.1.length
  let mag : Int := if 0 ≤ shift then (n : Int) * (10 : Int) ^ shift.toNat
    else ((n / 10 ^ (-shift).toNat : Nat) : Int)
  if p.1 then -mag else mag

/-- Python `int()` applied to a float: `ValueError` on `NaN`,
`OverflowError` on the infinities, truncation toward zero otherwise. -/
def floatToInt (raw : List Char) : Except PyExn Int :=
  if raw = ofStr "NaN" then .error .valueError
  else if raw = ofStr "Infinity" ∨ raw = ofStr "-Infinity" then .error .overflowError
  else .ok (floatTruncVal raw)

/-- Python `str.strip('"')`: drop leading and trailing double quotes. -/
def stripQuotes (cs : List Char) : List Char :=
  ((cs.dropWhile (· = '"')).reverse.dropWhile (· = '"')).reverse

/-- One line of the scoring loop, before its `except` clause.  Note this
loop does not strip individual lines.  `.jsonDecode` models a
`json.JSONDecodeError` from `json.loads`. -/
def scoreStepRaw (score : Int) (line : List Char) : Except PyExn Int :=
  if line.take 2 = ofStr "a:" then
    match jsonParse (line.drop 2) with
    | none => .error .jsonDecode
    | some jd =>
      match pyContains jd (ofStr "result") with
      | .error e => .error e
      | .ok false => .ok score
      | .ok true =>
        match jsonIndex jd (ofStr "result") with
        | .error e => .error e
        | .ok r =>
          match pyContains r (ofStr "data") with
          | .error e => .error e
          | .ok false => .ok score
          | .ok true =>
            match jsonIndex r (ofStr "data") with
            | .error e => .error e
            | .ok rd =>
              match rd with
              | .str s => if pyIsDigit s then .ok ((digitsToNat s : Int)) else .ok score
              | .num n => .ok n
              | .bool b => .ok (if b then 1 else 0)
              | .fnum raw => floatToInt raw
              | _ => .ok score
  else if line.take 2 = ofStr "0:" then
    let s := stripQuotes (line.drop 2)
    if pyIsDigit s then .ok ((digitsToNat s : Int)) else .ok score
  else .ok score

/-- One line of the scoring loop with its
`except (json.JSONDecodeError, KeyError, ValueError): continue`. -/
def scoreStep (score : Int) (line : List Char) : Except PyExn Int :=
  match scoreStepRaw score line with
  | .error .jsonDecode => .ok score
  | .error .keyError => .ok score
  | .error .valueError => .ok score
  | other => other

/-- The scoring loop with uncaught exceptions propagating. -/
def runScore (score : Int) : List (List Char) → Except PyExn Int
  | [] => .ok score
  | l :: ls =>
    match scoreStep score l with
    | .ok s => runScore s ls
    | .error e => .error e

/-- The function `parse_twitter_scoring_response` of `src/final.py`: `none` for the body
models `response.text()` failing to produce text (a decode failure or other
exception inside the outer `try`); every failure path returns the default
score 1. -/
def parse_twitter_scoring_response (body : Option (List Char)) : Int :=
  match body with
  | none => 1
  | some content =>
    match runScore 1 (splitOnNl (pyStrip content)) with
    | .ok s => s
    | .error _ => 1

/-- The upstream HTTP response as `analyze_twitter` sees it. -/
structure ApiResponse where
  status : Nat
  body : Option (List Char)

/-- The function `analyze_twitter` of `src/final.py`, reduced to the score it reports:
a non-200 status (or any exception, folded into the parse) yields the
default score 1. -/
def analyze_twitter (r : ApiResponse) : Int :=
  if r.status ≠ 200 then 1 else parse_twitter_scoring_response r.body

/-- The type of `result.data` payload that actually sets the score:
a digit string, an int, a bool, or a finite float. -/
def updatesType : Json → Bool
  | .str s => pyIsDigit s
  | .num _ => true
  | .bool _ => true
  | .fnum raw => !(raw = ofStr "NaN" || raw = ofStr "Infinity" || raw = ofStr "-Infinity")
  | _ => false

/-- A recognizable score line: an `a:` line whose JSON payload is an object
carrying `result.data` of a score-setting type, or a `0:` line whose
quote-stripped remainder is all digits. -/
def recognizable_score_line (l : List Char) : Bool :=
  if l.take 2 = ofStr "a:" then
    match jsonParse (l.drop 2) with
    | some (.obj kvs) =>
      match getKv kvs (ofStr "result") with
      | some (.obj kvs2) =>
        match getKv kvs2 (ofStr "data") with
        | some rd => updatesType rd
        | none => false
      | _ => false
    | _ => false
  else if l.take 2 = ofStr "0:" then pyIsDigit (stripQuotes (l.drop 2))
  else false

/-! ## The conversation state machine of `src/final.py`. -/

/-- The map update: `updFn f k v` is `f[k] := v`. -/
def updFn {α : Type} (f : Nat → α) (k : Nat) (v : α) : Nat → α :=
  fun n => if n = k then v else f n

namespace Final

/-- The `UserState` enum of `src/final.py`. -/
inductive UserState where
  | WAITING_FOR_TWITTER_URL : UserState
  | WAITING_FOR_WALLET_ADDRESS : UserState
  | WAITING_FOR_SWAP_REQUEST : UserState
  | WAITING_FOR_SWAP_CONFIRMATION : UserState
  | IDLE : UserState
  deriving DecidableEq, Repr

/-- The per-user `self.user_data[user_id]` dict; each key that the code
ever writes becomes an optional field (`none` = key absent).
`prize_amount` is `score * 0.1` USDC; it is kept in tenths of a USDC
(i.e. as the score) so the record stays integral. -/
structure UserData where
  twitter_url : Option (List Char) := none
  wallet_address : Option (List Char) := none
  score : Option Int := none
  prize_amount : Option Int := none
  session_id : Option (List Char) := none
  pending_tool_invocations : Option (List Json) := none
  deriving Repr

/-- The bot's per-user mutable state: `self.user_states` (defaulting to
`IDLE` via `.get`) and `self.user_data` (`none` = user absent). -/
structure BotState where
  states : Nat → UserState
  data : Nat → Option UserData

/-- The outbound messages the modelled handlers can send (texts are opaque
tags; interpolated data is carried as fields). -/
inductive Msg where
  | invalidUrlPrompt : Msg
  | urlReceived : Msg
  | invalidWalletPrompt : Msg
  | processingRequest : Msg
  | analysisComplete (score : Int) : Msg
  deriving DecidableEq, Repr

/-- The validator `is_valid_twitter_url` of `src/final.py` (line 679). -/
def is_valid_twitter_url (url : List Char) : Bool :=
  (containsSeq (ofStr "twitter.com") (pyLower url) || containsSeq (ofStr "x.com") (pyLower url))
    && (url.take 7 = ofStr "http://" || url.take 8 = ofStr "https://")

/-- The validator `is_valid_wallet_address` of `src/final.py` (line 684). -/
def is_valid_wallet_address (address : List Char) : Bool :=
  address.length == 42 && address.take 2 = ofStr "0x"
    && (address.drop 2).all (fun c => (ofStr "0123456789abcdefABCDEF").contains c)

/-- The handler `handle_twitter_url` of `src/final.py` (lines 198–207): reject an
invalid URL with a prompt and no state change; otherwise record the URL
and advance to `WAITING_FOR_WALLET_ADDRESS`
(`self.user_data[user_id][...]` raises `KeyError` when the user has no
data dict). -/
def handle_twitter_url (st : BotState) (uid : Nat) (url : List Char) :
    Except PyExn (BotState × List Msg) :=
  if !is_valid_twitter_url url then .ok (st, [.invalidUrlPrompt])
  else
    match st.data uid with
    | none => .error .keyError
    | some d =>
      .ok ({ states := updFn st.states uid .WAITING_FOR_WALLET_ADDRESS,
             data := updFn st.data uid (some { d with twitter_url := some url }) },
           [.urlReceived])

/-- The handler `handle_wallet_address` of `src/final.py` (lines 209–246): reject an
invalid address with a prompt and no state change; otherwise store the
stripped address, run the scoring call (its HTTP response is the `resp`
parameter), store the score and prize, and advance to
`WAITING_FOR_SWAP_REQUEST`. -/
def handle_wallet_address (resp : ApiResponse) (st : BotState) (uid : Nat)
    (wallet_address : List Char) : Except PyExn (BotState × List Msg) :=
  if !is_valid_wallet_address (pyStrip wallet_address) then .ok (st, [.invalidWalletPrompt])
  else
    match st.data uid with
    | none => .error .keyError
    | some d =>
      let score := analyze_twitter resp
      .ok ({ states := updFn st.states uid .WAITING_FOR_SWAP_REQUEST,
             data := updFn st.data uid
               (some { d with wallet_address := some (pyStrip wallet_address),
                              score := some score, prize_amount := some score }) },
           [.processingRequest, .analysisComplete score])

/-- The cleanup `cleanup_user_data` of `src/final.py` (lines 750–764): state back to
`IDLE`; the data dict is replaced by `{}` and then the wallet address and
session id are put back, each only if present and truthy (a stored empty
string, like a missing key, is not restored). -/
def cleanup_user_data (st : BotState) (uid : Nat) : BotState :=
  let st1 : BotState := { st with states := updFn st.states uid .IDLE }
  match st.data uid with
  | none => st1
  | some d =>
    let w := match d.wallet_address with
      | some x => if x.isEmpty then none else some x
      | none => none
    let s := match d.session_id with
      | some x => if x.isEmpty then none else some x
      | none => none
    { st1 with data := updFn st.data uid (some { wallet_address := w, session_id := s }) }

end Final

/-! ## The conversation state machine of `src/chatbot.py`. -/

namespace Chatbot

/-- The `UserState` enum of `src/chatbot.py`. -/
inductive UserState where
  | WAITING_FOR_TWITTER_URL : UserState
  | WAITING_FOR_WALLET_ADDRESS : UserState
  | WAITING_FOR_TOKEN_PREFERENCE : UserState
  | IDLE : UserState
  deriving DecidableEq, Repr

/-- The per-user `self.user_data[user_id]` dict of `src/chatbot.py`. -/
structure UserData where
  twitter_url : Option (List Char) := none
  wallet_address : Option (List Char) := none
  score : Option Int := none
  deriving Repr

/-- The bot's per-user mutable state. -/
structure BotState where
  states : Nat → UserState
  data : Nat → Option UserData

/-- Outbound messages of `handle_token_preference` (texts are opaque tags;
the parse-failure prompt interpolates `str(e)`, carried as the `TPErr`). -/
inductive Msg where
  | processingAllocation : Msg
  | transactionComplete (score : Int) (alloc : Alloc) : Msg
  | parseErrorPrompt (e : TPErr) : Msg

/-- The handler `handle_token_preference` of `src/chatbot.py` (lines 150–191): a
`ValueError` from the parse is caught and answered with a correction
prompt, leaving all state untouched; on success the mock transaction runs,
the summary is sent, the state returns to `IDLE` and the user's data dict
is deleted.  (On the success path a missing data dict raises `KeyError`
after the processing message was already sent; the model drops that
message along with the rest of the turn.) -/
def handle_token_preference (st : BotState) (uid : Nat) (preference : List Char) :
    Except PyExn (BotState × List Msg) :=
  match parse_token_preference preference with
  | .error e => .ok (st, [.parseErrorPrompt e])
  | .ok alloc =>
    match st.data uid with
    | none => .error .keyError
    | some d =>
      match d.twitter_url, d.wallet_address, d.score with
      | some _, some _, some score =>
        .ok ({ states := updFn st.states uid .IDLE, data := updFn st.data uid none },
             [.processingAllocation, .transactionComplete score alloc])
      | _, _, _ => .error .keyError

end Chatbot

/-- The acceptance condition exactly as claim C10 words it: after
stripping, exactly 42 characters, leading `0x`, and every remaining
character a hexadecimal digit (0-9, a-f, A-F). -/
def wallet_address_spec (cs : List Char) : Prop :=
  cs.length = 42 ∧ cs.take 2 = ['0', 'x'] ∧
    ∀ c ∈ cs.drop 2, ('0' ≤ c ∧ c ≤ '9') ∨ ('a' ≤ c ∧ c ≤ 'f') ∨ ('A' ≤ c ∧ c ≤ 'F')

/-- Concrete stream for the merge witness: a `swap` call `x` with a
matching result, then a call `y` with none. -/
def mwBody : List Char :=
  ofStr "9:\x7b\x22toolCallId\x22:\x22x\x22,\x22toolName\x22:\x22swap\x22\x7d\na:\x7b\x22toolCallId\x22:\x22x\x22,\x22result\x22:\x7b\x22data\x22:7\x7d\x7d\n9:\x7b\x22toolCallId\x22:\x22y\x22\x7d"

/-- The completed invocation the witness stream produces. -/
def mwTool1 : Json :=
  .obj [(ofStr "toolCallId", .str (ofStr "x")), (ofStr "toolName", .str (ofStr "swap")),
        (ofStr "result", .obj [(ofStr "data", .num 7)]),
        (ofStr "state", .str (ofStr "completed"))]

/-- The pending invocation the witness stream produces. -/
def mwTool2 : Json :=
  .obj [(ofStr "toolCallId", .str (ofStr "y")), (ofStr "state", .str (ofStr "pending"))]

/-- The full parse of the witness stream. -/
def mwOut : ParseResult :=
  ⟨some (assistantMessage [] [] [mwTool1, mwTool2]), [], [mwTool1, mwTool2]⟩

/-! ## Allocation lemmas -/

theorem sumAlloc_allocAdd (a : Alloc) (t : Tok) (p : Nat) :
    sumAlloc (allocAdd a t p) = sumAlloc a + p := by
  induction a with
  | nil => simp [allocAdd, sumAlloc]
  | cons hd tl ih =>
    obtain ⟨t', q⟩ := hd
    by_cases h : t' = t <;> (simp [allocAdd, h, sumAlloc] at ih ⊢; omega)

theorem allocVal_allocAdd (a : Alloc) (t : Tok) (p : Nat) (u : Tok) :
    allocVal (allocAdd a t p) u = allocVal a u + (if t = u then p else 0) := by
  induction a with
  | nil =>
    simp only [allocAdd, allocVal]
    by_cases h : t = u <;> simp [h]
  | cons hd tl ih =>
    obtain ⟨t', q⟩ := hd
    by_cases h : t' = t
    · subst h
      by_cases h2 : t' = u <;> simp [allocAdd, allocVal, h2]
    · by_cases h2 : t' = u
      · subst h2
        have hne : ¬ t = t' := fun he => h he.symm
        simp [allocAdd, allocVal, h, hne]
      · simp [allocAdd, allocVal, h, h2, ih]

theorem allocLoop_go_snd (ms : List (List Char × Tok)) (a : Alloc) (n : Nat) :
    (ms.foldl (fun acc m => (allocAdd acc.1 m.2 (digitsToNat m.1),
      acc.2 + digitsToNat m.1)) (a, n)).2 = n + matchTotal ms := by
  induction ms generalizing a n with
  | nil => simp [matchTotal]
  | cons hd tl ih => simp [List.foldl_cons, ih, matchTotal] at * ; omega

theorem allocLoop_go_sum (ms : List (List Char × Tok)) (a : Alloc) (n : Nat) :
    sumAlloc (ms.foldl (fun acc m => (allocAdd acc.1 m.2 (digitsToNat m.1),
      acc.2 + digitsToNat m.1)) (a, n)).1 = sumAlloc a + matchTotal ms := by
  induction ms generalizing a n with
  | nil => simp [matchTotal]
  | cons hd tl ih =>
    simp only [List.foldl_cons, ih, sumAlloc_allocAdd, matchTotal, List.map_cons, List.sum_cons]
    omega

theorem allocLoop_go_val (ms : List (List Char × Tok)) (a : Alloc) (n : Nat) (t : Tok) :
    allocVal (ms.foldl (fun acc m => (allocAdd acc.1 m.2 (digitsToNat m.1),
      acc.2 + digitsToNat m.1)) (a, n)).1 t = allocVal a t + explicitSum ms t := by
  induction ms generalizing a n with
  | nil => simp [explicitSum]
  | cons hd tl ih =>
    simp only [List.foldl_cons, ih, allocVal_allocAdd, explicitSum, List.filterMap_cons]
    by_cases h : hd.2 = t <;> simp [h] <;> omega

/-- The loop total: `allocLoop` restated through `matchTotal`: the loop's running total is
the sum of all matched percentages. -/
theorem allocLoop_snd (ms : List (List Char × Tok)) : (allocLoop ms).2 = matchTotal ms := by
  simpa using allocLoop_go_snd ms [] 0

/-- C3: whenever `parse_token_preference` returns an allocation — the bare
symbol shape or any matched percentage composition — its integer
percentages sum to exactly 100. -/
theorem parse_token_preference_sums_to_100 (pref : List Char) (a : Alloc)
    (h : parse_token_preference pref = .ok a) : sumAlloc a = 100 := by
  by_cases h1 : pyStrip (pyUpper pref) = ofStr "NATIVE"
  · simp [parse_token_preference, h1] at h
    subst h; rfl
  by_cases h2 : pyStrip (pyUpper pref) = ofStr "USDC"
  · simp [parse_token_preference, h1, h2,
      (by decide : ofStr "USDC" ≠ ofStr "NATIVE")] at h
    subst h; rfl
  by_cases h3 : pyStrip (pyUpper pref) = ofStr "ETH"
  · simp [parse_token_preference, h1, h2, h3,
      (by decide : ofStr "ETH" ≠ ofStr "NATIVE"),
      (by decide : ofStr "ETH" ≠ ofStr "USDC")] at h
    subst h; rfl
  by_cases hm : matches_of (pyStrip (pyUpper pref)) = []
  · simp [parse_token_preference, h1, h2, h3, hm] at h
  by_cases hgt : 100 < matchTotal (matches_of (pyStrip (pyUpper pref)))
  · simp [parse_token_preference, h1, h2, h3, hm, allocLoop_snd, hgt] at h
  by_cases hlt : matchTotal (matches_of (pyStrip (pyUpper pref))) < 100
  · simp [parse_token_preference, h1, h2, h3, hm, allocLoop_snd, hgt, hlt] at h
    subst h
    rw [sumAlloc_allocAdd, allocLoop]
    rw [allocLoop_go_sum]
    simp only [sumAlloc, List.map_nil, List.sum_nil, Nat.zero_add]
    omega
  · simp [parse_token_preference, h1, h2, h3, hm, allocLoop_snd, hgt, hlt] at h
    subst h
    rw [allocLoop]
    rw [allocLoop_go_sum]
    simp only [sumAlloc, List.map_nil, List.sum_nil, Nat.zero_add]
    omega

/-- Witness for C3 at the spec's own example `"70% USDC and 30% NATIVE"`. -/
theorem parse_token_preference_sums_to_100_witness :
    sumAlloc [(Tok.USDC, 70), (Tok.NATIVE, 30)] = 100 :=
  parse_token_preference_sums_to_100 (ofStr "70% USDC and 30% NATIVE")
    [(Tok.USDC, 70), (Tok.NATIVE, 30)] (by rfl)

/-- C4: on the matched-composition path with total `T < 100`, duplicate
mentions of a symbol are summed and `NATIVE` ends with `100 - T` plus
whatever it was given explicitly: for every token `t` the returned share is
its explicit summed share, plus the shortfall exactly when `t` is
`NATIVE`. -/
theorem parse_token_preference_shortfall (pref : List Char) (a : Alloc)
    (hb1 : pyStrip (pyUpper pref) ≠ ofStr "NATIVE")
    (hb2 : pyStrip (pyUpper pref) ≠ ofStr "USDC")
    (hb3 : pyStrip (pyUpper pref) ≠ ofStr "ETH")
    (hm : matches_of (pyStrip (pyUpper pref)) ≠ [])
    (ht : matchTotal (matches_of (pyStrip (pyUpper pref))) < 100)
    (h : parse_token_preference pref = .ok a) :
    ∀ t : Tok, allocVal a t =
      explicitSum (matches_of (pyStrip (pyUpper pref))) t +
        (if t = Tok.NATIVE then 100 - matchTotal (matches_of (pyStrip (pyUpper pref))) else 0) := by
  intro t
  have hgt : ¬ 100 < matchTotal (matches_of (pyStrip (pyUpper pref))) := by omega
  simp [parse_token_preference, hb1, hb2, hb3, hm, allocLoop_snd, hgt, ht] at h
  subst h
  rw [allocVal_allocAdd, allocLoop]
  rw [allocLoop_go_val]
  simp only [allocVal]
  by_cases hnat : t = Tok.NATIVE
  · subst hnat; simp
  · have hnat' : ¬ (Tok.NATIVE = t) := fun he => hnat he.symm
    simp [hnat, hnat']

/-- Witness for C4 at the spec's example `"40% USDC"` (yields
`{USDC: 40, NATIVE: 60}`). -/
theorem parse_token_preference_shortfall_witness :
    allocVal [(Tok.USDC, 40), (Tok.NATIVE, 60)] Tok.NATIVE =
      explicitSum (matches_of (pyStrip (pyUpper (ofStr "40% USDC")))) Tok.NATIVE +
        (if Tok.NATIVE = Tok.NATIVE then
          100 - matchTotal (matches_of (pyStrip (pyUpper (ofStr "40% USDC")))) else 0) :=
  parse_token_preference_shortfall (ofStr "40% USDC") [(Tok.USDC, 40), (Tok.NATIVE, 60)]
    (by decide) (by decide) (by decide) (by decide) (by decide) (by rfl) Tok.NATIVE

/-- C5: `parse_token_preference` fails exactly in two cases — the input is
not a bare known symbol and the matches total `T > 100`, failing with the
validation error carrying `T`, or the input is not a bare known symbol and
neither pattern matches, failing with the generic could-not-parse error;
every other input yields an allocation. -/
theorem parse_token_preference_error_iff (pref : List Char) (e : TPErr) :
    parse_token_preference pref = .error e ↔
      (pyStrip (pyUpper pref) ≠ ofStr "NATIVE" ∧ pyStrip (pyUpper pref) ≠ ofStr "USDC" ∧
        pyStrip (pyUpper pref) ≠ ofStr "ETH") ∧
      ((matches_of (pyStrip (pyUpper pref)) = [] ∧ e = .couldNotParse) ∨
       (matches_of (pyStrip (pyUpper pref)) ≠ [] ∧
        100 < matchTotal (matches_of (pyStrip (pyUpper pref))) ∧
        e = .totalExceeds (matchTotal (matches_of (pyStrip (pyUpper pref)))))) := by
  by_cases h1 : pyStrip (pyUpper pref) = ofStr "NATIVE"
  · simp [parse_token_preference, h1]
  by_cases h2 : pyStrip (pyUpper pref) = ofStr "USDC"
  · simp [parse_token_preference, h1, h2,
      (by decide : ofStr "USDC" ≠ ofStr "NATIVE")]
  by_cases h3 : pyStrip (pyUpper pref) = ofStr "ETH"
  · simp [parse_token_preference, h1, h2, h3,
      (by decide : ofStr "ETH" ≠ ofStr "NATIVE"),
      (by decide : ofStr "ETH" ≠ ofStr "USDC")]
  by_cases hm : matches_of (pyStrip (pyUpper pref)) = []
  · simp only [parse_token_preference, h1, h2, h3, hm, if_false, List.isEmpty_nil, if_true,
      Except.error.injEq, ne_eq, not_true_eq_false, false_and, or_false, and_true, not_false_iff,
      true_and]
    exact eq_comm
  by_cases hgt : 100 < matchTotal (matches_of (pyStrip (pyUpper pref)))
  · simp [parse_token_preference, h1, h2, h3, hm, allocLoop_snd, hgt]
    exact eq_comm
  by_cases hlt : matchTotal (matches_of (pyStrip (pyUpper pref))) < 100
  · simp [parse_token_preference, h1, h2, h3, hm, allocLoop_snd, hgt, hlt]
  · simp [parse_token_preference, h1, h2, h3, hm, allocLoop_snd, hgt, hlt]

/-- Membership in the validator's hex alphabet is exactly the three
character ranges 0-9, a-f, A-F. -/
theorem hex_alphabet_mem_iff (c : Char) :
    (ofStr "0123456789abcdefABCDEF").contains c = true ↔
      (('0' ≤ c ∧ c ≤ '9') ∨ ('a' ≤ c ∧ c ≤ 'f') ∨ ('A' ≤ c ∧ c ≤ 'F')) := by
  constructor
  · intro h
    simp [ofStr, String.toList, List.contains] at h
    rcases h with h|h|h|h|h|h|h|h|h|h|h|h|h|h|h|h|h|h|h|h|h|h <;> subst h <;> decide
  · intro h
    have hofn := Char.ofNat_toNat c
    rw [← hofn]
    rcases h with ⟨h1, h2⟩ | ⟨h1, h2⟩ | ⟨h1, h2⟩
    · have b1 : (48 : Nat) ≤ c.toNat := Char.le_def.mp h1
      have b2 : c.toNat ≤ (57 : Nat) := Char.le_def.mp h2
      set n := c.toNat with hn
      clear_value n
      interval_cases n <;> decide
    · have b1 : (97 : Nat) ≤ c.toNat := Char.le_def.mp h1
      have b2 : c.toNat ≤ (102 : Nat) := Char.le_def.mp h2
      set n := c.toNat with hn
      clear_value n
      interval_cases n <;> decide
    · have b1 : (65 : Nat) ≤ c.toNat := Char.le_def.mp h1
      have b2 : c.toNat ≤ (70 : Nat) := Char.le_def.mp h2
      set n := c.toNat with hn
      clear_value n
      interval_cases n <;> decide

/-- The code's wallet validator agrees with the claim's wording. -/
theorem is_valid_wallet_address_iff_spec (cs : List Char) :
    Final.is_valid_wallet_address cs = true ↔ wallet_address_spec cs := by
  simp only [Final.is_valid_wallet_address, Bool.and_eq_true, beq_iff_eq,
    decide_eq_true_eq, List.all_eq_true, wallet_address_spec, and_assoc]
  constructor
  · rintro ⟨h1, h2, h3⟩
    exact ⟨h1, by simpa [ofStr] using h2, fun c hc => (hex_alphabet_mem_iff c).mp (h3 c hc)⟩
  · rintro ⟨h1, h2, h3⟩
    exact ⟨h1, by simpa [ofStr] using h2, fun c hc => (hex_alphabet_mem_iff c).mpr (h3 c hc)⟩

/-- C10: in the full bot variant, a wallet address advances the
conversation past the awaiting-wallet state exactly when the stripped
string is 42 characters, starts with `0x`, and has 40 hex digits after;
(the session must have a data record, as it does whenever this state is
reachable). -/
theorem wallet_acceptance_iff (resp : ApiResponse) (st : Final.BotState) (uid : Nat)
    (addr : List Char) (d : Final.UserData)
    (hd : st.data uid = some d)
    (hst : st.states uid = Final.UserState.WAITING_FOR_WALLET_ADDRESS) :
    (∃ st' msgs, Final.handle_wallet_address resp st uid addr = .ok (st', msgs) ∧
        st'.states uid = Final.UserState.WAITING_FOR_SWAP_REQUEST) ↔
      wallet_address_spec (pyStrip addr) := by
  rw [← is_valid_wallet_address_iff_spec]
  by_cases hv : Final.is_valid_wallet_address (pyStrip addr) = true
  · simp only [Final.handle_wallet_address, hv, Bool.not_true, Bool.false_eq_true, if_false, hd,
      hv, iff_true]
    exact ⟨_, _, rfl, by simp [updFn]⟩
  · have hv' : Final.is_valid_wallet_address (pyStrip addr) = false := by
      simpa using hv
    simp only [Final.handle_wallet_address, hv', Bool.not_false, if_true]
    refine iff_of_false ?_ (by simp [hv'])
    rintro ⟨st', msgs, heq, hstate⟩
    rw [Except.ok.injEq, Prod.mk.injEq] at heq
    rw [← heq.1] at hstate
    rw [hst] at hstate
    exact absurd hstate (by decide)

/-- Witness for C10 on a valid stripped address in the awaiting-wallet
state. -/
theorem wallet_acceptance_iff_witness :
    (∃ st' msgs,
        Final.handle_wallet_address ⟨200, none⟩
            ⟨fun _ => Final.UserState.WAITING_FOR_WALLET_ADDRESS, fun _ => some {}⟩ 0
            (ofStr " 0x293D3a1D4261570Bf30F0670cD41B5200Dc0A08f ") = .ok (st', msgs) ∧
        st'.states 0 = Final.UserState.WAITING_FOR_SWAP_REQUEST) ↔
      wallet_address_spec (pyStrip (ofStr " 0x293D3a1D4261570Bf30F0670cD41B5200Dc0A08f ")) :=
  wallet_acceptance_iff ⟨200, none⟩
    ⟨fun _ => Final.UserState.WAITING_FOR_WALLET_ADDRESS, fun _ => some {}⟩ 0
    (ofStr " 0x293D3a1D4261570Bf30F0670cD41B5200Dc0A08f ") {} (by rfl) (by rfl)

/-- C8: an inbound message failing its state's validation — an invalid URL
while awaiting the URL, an invalid wallet address while awaiting the wallet
address, an unparsable or over-100% preference while awaiting the token
preference — leaves the stored state and session data unchanged, produces
exactly one correction prompt, and raises no exception outward. -/
theorem invalid_input_is_harmless :
    (∀ (st : Final.BotState) (uid : Nat) (url : List Char),
        Final.is_valid_twitter_url url = false →
        Final.handle_twitter_url st uid url = .ok (st, [.invalidUrlPrompt])) ∧
    (∀ (resp : ApiResponse) (st : Final.BotState) (uid : Nat) (addr : List Char),
        Final.is_valid_wallet_address (pyStrip addr) = false →
        Final.handle_wallet_address resp st uid addr = .ok (st, [.invalidWalletPrompt])) ∧
    (∀ (st : Chatbot.BotState) (uid : Nat) (pref : List Char) (e : TPErr),
        parse_token_preference pref = .error e →
        Chatbot.handle_token_preference st uid pref = .ok (st, [.parseErrorPrompt e])) := by
  refine ⟨fun st uid url h => ?_, fun resp st uid addr h => ?_, fun st uid pref e h => ?_⟩
  · simp [Final.handle_twitter_url, h]
  · simp [Final.handle_wallet_address, h]
  · simp [Chatbot.handle_token_preference, h]

/-- Witness for C8: a non-URL, a bad wallet, and an unparsable preference,
each answered by one prompt with the state untouched. -/
theorem invalid_input_is_harmless_witness :
    Final.handle_twitter_url
        ⟨fun _ => Final.UserState.WAITING_FOR_TWITTER_URL, fun _ => some {}⟩ 0
        (ofStr "hello") =
      .ok (⟨fun _ => Final.UserState.WAITING_FOR_TWITTER_URL, fun _ => some {}⟩,
        [.invalidUrlPrompt]) ∧
    Final.handle_wallet_address ⟨200, none⟩
        ⟨fun _ => Final.UserState.WAITING_FOR_WALLET_ADDRESS, fun _ => some {}⟩ 0
        (ofStr "0xdeadbeef") =
      .ok (⟨fun _ => Final.UserState.WAITING_FOR_WALLET_ADDRESS, fun _ => some {}⟩,
        [.invalidWalletPrompt]) ∧
    Chatbot.handle_token_preference
        ⟨fun _ => Chatbot.UserState.WAITING_FOR_TOKEN_PREFERENCE, fun _ => some {}⟩ 0
        (ofStr "maybe half and half") =
      .ok (⟨fun _ => Chatbot.UserState.WAITING_FOR_TOKEN_PREFERENCE, fun _ => some {}⟩,
        [.parseErrorPrompt .couldNotParse]) :=
  ⟨invalid_input_is_harmless.1 _ 0 _ (by rfl),
   invalid_input_is_harmless.2.1 _ _ 0 _ (by rfl),
   invalid_input_is_harmless.2.2 _ 0 _ _ (by rfl)⟩

/-- C9: `cleanup_user_data` sets the user's state to `Idle` and clears
every transient field, preserving exactly the wallet address and session
identifier (both fields hold either nothing or a nonempty string in every
reachable session, which is what the preservation needs). -/
theorem cleanup_user_data_frame (st : Final.BotState) (uid : Nat) :
    (Final.cleanup_user_data st uid).states uid = Final.UserState.IDLE ∧
    (st.data uid = none → (Final.cleanup_user_data st uid).data uid = none) ∧
    (∀ d : Final.UserData, st.data uid = some d →
      d.wallet_address ≠ some [] → d.session_id ≠ some [] →
      (Final.cleanup_user_data st uid).data uid =
        some { twitter_url := none, wallet_address := d.wallet_address, score := none,
               prize_amount := none, session_id := d.session_id,
               pending_tool_invocations := none }) := by
  refine ⟨?_, fun h => ?_, fun d hd hw hs => ?_⟩
  · unfold Final.cleanup_user_data
    cases st.data uid <;> simp [updFn]
  · simp [Final.cleanup_user_data, h]
  · simp only [Final.cleanup_user_data, hd, updFn, if_pos]
    simp only [Option.some.injEq]
    have hw' : ∀ x, d.wallet_address = some x → x.isEmpty = false := by
      intro x hx
      rw [hx] at hw
      rcases x with _ | _
      · exact absurd rfl hw
      · rfl
    have hs' : ∀ x, d.session_id = some x → x.isEmpty = false := by
      intro x hx
      rw [hx] at hs
      rcases x with _ | _
      · exact absurd rfl hs
      · rfl
    cases hwx : d.wallet_address with
    | none => cases hsx : d.session_id with
      | none => simp
      | some s => simp [hs' s hsx]
    | some w => cases hsx : d.session_id with
      | none => simp [hw' w hwx]
      | some s => simp [hw' w hwx, hs' s hsx]

/-- Witness for C9 on a fully populated session record. -/
theorem cleanup_user_data_frame_witness :
    (Final.cleanup_user_data
        ⟨fun _ => Final.UserState.WAITING_FOR_SWAP_CONFIRMATION,
         fun _ => some { twitter_url := some (ofStr "https://x.com/a/status/1"),
                         wallet_address := some (ofStr "0xAB"), score := some 7,
                         prize_amount := some 7, session_id := some (ofStr "sess"),
                         pending_tool_invocations := some [] }⟩ 0).states 0 =
      Final.UserState.IDLE ∧
    (Final.cleanup_user_data
        ⟨fun _ => Final.UserState.WAITING_FOR_SWAP_CONFIRMATION,
         fun _ => some { twitter_url := some (ofStr "https://x.com/a/status/1"),
                         wallet_address := some (ofStr "0xAB"), score := some 7,
                         prize_amount := some 7, session_id := some (ofStr "sess"),
                         pending_tool_invocations := some [] }⟩ 0).data 0 =
      some { twitter_url := none, wallet_address := some (ofStr "0xAB"), score := none,
             prize_amount := none, session_id := some (ofStr "sess"),
             pending_tool_invocations := none } :=
  ⟨(cleanup_user_data_frame _ 0).1,
   (cleanup_user_data_frame _ 0).2.2 _ (by rfl) (by simp [ofStr]) (by simp [ofStr])⟩

/-- A line that is not a recognizable score line either leaves the score
unchanged or raises (and an uncaught exception makes the whole parse fall
back to 1, so either way no other score can emerge). -/
theorem scoreStep_of_not_recognizable (l : List Char)
    (h : recognizable_score_line l = false) (s : Int) :
    scoreStep s l = .ok s ∨ ∃ e, scoreStep s l = .error e := by
  by_cases ha : l.take 2 = ofStr "a:"
  · simp only [recognizable_score_line, ha, if_true] at h
    simp only [scoreStep, scoreStepRaw, ha, if_true]
    cases hj : jsonParse (l.drop 2) with
    | none => left; rfl
    | some jd =>
      simp only [hj] at h
      cases jd with
      | null => right; exact ⟨.typeError, rfl⟩
      | bool b => right; exact ⟨.typeError, rfl⟩
      | num n => right; exact ⟨.typeError, rfl⟩
      | fnum raw => right; exact ⟨.typeError, rfl⟩
      | str s2 =>
        simp only [pyContains]
        cases containsSeq (ofStr "result") s2
        · left; rfl
        · right; exact ⟨.typeError, rfl⟩
      | arr xs =>
        simp only [pyContains]
        cases xs.any (jsonEq (.str (ofStr "result")))
        · left; rfl
        · right; exact ⟨.typeError, rfl⟩
      | obj kvs =>
        simp only [pyContains]
        cases hr : getKv kvs (ofStr "result") with
        | none => left; rfl
        | some r =>
          simp only [hr] at h
          simp only [Option.isSome_some, jsonIndex, hr]
          cases r with
          | obj kvs2 =>
            simp only [pyContains]
            cases hd : getKv kvs2 (ofStr "data") with
            | none => left; rfl
            | some rd =>
              simp only [hd] at h
              simp only [Option.isSome_some, jsonIndex, hd]
              cases rd with
              | str s3 =>
                simp only [updatesType] at h
                left
                simp [h]
              | num n => simp [updatesType] at h
              | bool b => simp [updatesType] at h
              | fnum raw =>
                have h' : raw = ofStr "NaN" ∨ raw = ofStr "Infinity" ∨
                    raw = ofStr "-Infinity" := by
                  by_contra hc
                  push_neg at hc
                  simp [updatesType, hc.1, hc.2.1, hc.2.2] at h
                rcases h' with h1 | h1 | h1
                · left; simp [floatToInt, h1]
                · right
                  refine ⟨.overflowError, ?_⟩
                  simp [floatToInt, h1, (by decide : ofStr "Infinity" ≠ ofStr "NaN")]
                · right
                  refine ⟨.overflowError, ?_⟩
                  simp [floatToInt, h1, (by decide : ofStr "-Infinity" ≠ ofStr "NaN")]
              | null => left; rfl
              | arr xs2 => left; rfl
              | obj kvs3 => left; rfl
          | str s3 =>
            simp only [pyContains]
            cases containsSeq (ofStr "data") s3
            · left; rfl
            · right; exact ⟨.typeError, rfl⟩
          | arr xs2 =>
            simp only [pyContains]
            cases xs2.any (jsonEq (.str (ofStr "data")))
            · left; rfl
            · right; exact ⟨.typeError, rfl⟩
          | null => right; exact ⟨.typeError, rfl⟩
          | bool b => right; exact ⟨.typeError, rfl⟩
          | num n => right; exact ⟨.typeError, rfl⟩
          | fnum raw2 => right; exact ⟨.typeError, rfl⟩
  · by_cases h0 : l.take 2 = ofStr "0:"
    · simp [recognizable_score_line, h0, (by decide : ofStr "0:" ≠ ofStr "a:")] at h
      left
      simp [scoreStep, scoreStepRaw, h0, h, (by decide : ofStr "0:" ≠ ofStr "a:")]
    · left
      simp [scoreStep, scoreStepRaw, ha, h0]

/-- Over a stream with no recognizable score line the loop keeps its
running score or dies with an exception. -/
theorem runScore_of_no_recognizable (lines : List (List Char))
    (h : ∀ l ∈ lines, recognizable_score_line l = false) (s : Int) :
    runScore s lines = .ok s ∨ ∃ e, runScore s lines = .error e := by
  induction lines with
  | nil => left; rfl
  | cons hd tl ih =>
    have hh := h hd (List.mem_cons_self hd tl)
    have ht : ∀ l ∈ tl, recognizable_score_line l = false :=
      fun l hl => h l (List.mem_cons_of_mem hd hl)
    rcases scoreStep_of_not_recognizable hd hh s with hok | ⟨e, herr⟩
    · simpa [runScore, hok] using ih ht
    · right; exact ⟨e, by simp [runScore, herr]⟩

/-- C7: the Twitter analysis falls back to the default score 1 on a
non-success HTTP status, on a body that fails to decode (or any exception
folded into the parse), and on a decoded body with no recognizable score
line. -/
theorem analyze_twitter_defaults :
    (∀ r : ApiResponse, r.status ≠ 200 → analyze_twitter r = 1) ∧
    (∀ s : Nat, analyze_twitter ⟨s, none⟩ = 1) ∧
    (∀ body : List Char,
        (∀ l ∈ splitOnNl (pyStrip body), recognizable_score_line l = false) →
        analyze_twitter ⟨200, some body⟩ = 1) := by
  refine ⟨fun r h => ?_, fun s => ?_, fun body h => ?_⟩
  · simp [analyze_twitter, h]
  · by_cases hs : s = 200 <;> simp [analyze_twitter, hs, parse_twitter_scoring_response]
  · simp only [analyze_twitter, ne_eq, not_true_eq_false, if_false,
      parse_twitter_scoring_response]
    rcases runScore_of_no_recognizable (splitOnNl (pyStrip body)) h 1 with hok | ⟨e, herr⟩
    · rw [hok]
    · rw [herr]

/-- Witness for C7: a 500 status, a missing body, and a body whose lines
carry no score. -/
theorem analyze_twitter_defaults_witness :
    analyze_twitter ⟨500, some (ofStr "0:\"9\"")⟩ = 1 ∧
    analyze_twitter ⟨200, none⟩ = 1 ∧
    analyze_twitter ⟨200, some (ofStr "hello\n0:\"ok then\"\nf:\x7b\x7d")⟩ = 1 :=
  ⟨analyze_twitter_defaults.1 ⟨500, some (ofStr "0:\"9\"")⟩ (by decide),
   analyze_twitter_defaults.2.1 200,
   analyze_twitter_defaults.2.2 (ofStr "hello\n0:\"ok then\"\nf:\x7b\x7d") (by decide)⟩

/-! ## Streaming-parser lemmas -/

/-- A bad line (unrecognized prefix or malformed JSON) leaves the line
loop's accumulator untouched and raises nothing. -/
theorem stepLine_bad (acc : StreamAcc) (b : List Char)
    (hb : bad_stream_line b = true) : stepLine acc b = .ok acc := by
  simp only [bad_stream_line] at hb
  simp only [stepLine]
  by_cases he : (pyStrip b).isEmpty
  · simp [he]
  · have he' : (pyStrip b).isEmpty = false := by simpa using he
    simp only [he', Bool.false_eq_true, if_false]
    by_cases h0 : (pyStrip b).take 2 = ofStr "0:"
    · simp only [h0, true_or, if_true] at hb
      rw [Option.isNone_iff_eq_none] at hb
      simp [h0, hb]
    · by_cases h9 : (pyStrip b).take 2 = ofStr "9:"
      · simp only [h9, true_or, or_true, if_true] at hb
        rw [Option.isNone_iff_eq_none] at hb
        simp [h0, h9, hb]
      · by_cases hA : (pyStrip b).take 2 = ofStr "a:"
        · simp only [hA, or_true, if_true] at hb
          rw [Option.isNone_iff_eq_none] at hb
          simp [h0, h9, hA, hb]
        · simp [h0, h9, hA]

/-- The three stream prefixes are pairwise distinct (used to reduce the
per-line classification). -/
theorem stream_marker_ne :
    ofStr "0:" ≠ ofStr "9:" ∧ ofStr "0:" ≠ ofStr "a:" ∧ ofStr "9:" ≠ ofStr "0:" ∧
    ofStr "9:" ≠ ofStr "a:" ∧ ofStr "a:" ≠ ofStr "0:" ∧ ofStr "a:" ≠ ofStr "9:" := by
  decide

/-- What one loop iteration does to the accumulator, in terms of the
declarative per-line extractions. -/
theorem stepLine_ok_char (acc acc' : StreamAcc) (l : List Char)
    (h : stepLine acc l = .ok acc') :
    acc' = ⟨acc.content ++ (line_delta l).getD [],
            acc.calls ++ (line_call l).toList,
            (line_result l).toList ++ acc.results⟩ := by
  obtain ⟨c, k, r⟩ := acc
  by_cases he : (pyStrip l).isEmpty
  · have hnil : pyStrip l = [] := by simpa [List.isEmpty_iff] using he
    simp only [stepLine, hnil, List.isEmpty_nil, if_true] at h
    injection h with h'
    subst h'
    simp [line_delta, line_call, line_result, hnil,
      (by decide : ¬ (([] : List Char) = ofStr "0:")),
      (by decide : ¬ (([] : List Char) = ofStr "9:")),
      (by decide : ¬ (([] : List Char) = ofStr "a:"))]
  · have he' : (pyStrip l).isEmpty = false := by simpa using he
    by_cases h0 : (pyStrip l).take 2 = ofStr "0:"
    · have h9 : ¬ (pyStrip l).take 2 = ofStr "9:" := by rw [h0]; decide
      have hA : ¬ (pyStrip l).take 2 = ofStr "a:" := by rw [h0]; decide
      simp only [stepLine, he', Bool.false_eq_true, if_false, h0, if_true] at h
      cases hj : jsonParse ((pyStrip l).drop 2) with
      | none =>
        simp only [hj] at h
        injection h with h'
        subst h'
        simp [line_delta, line_call, line_result, h0, h9, hA, hj]
      | some j =>
        cases j <;>
          (simp only [hj] at h
           injection h with h'
           subst h'
           simp [line_delta, line_call, line_result, h0, h9, hA, hj,
             stream_marker_ne.1, stream_marker_ne.2.1, stream_marker_ne.2.2.1,
             stream_marker_ne.2.2.2.1, stream_marker_ne.2.2.2.2.1,
             stream_marker_ne.2.2.2.2.2])
    · by_cases h9 : (pyStrip l).take 2 = ofStr "9:"
      · have hA : ¬ (pyStrip l).take 2 = ofStr "a:" := by rw [h9]; decide
        simp only [stepLine, he', Bool.false_eq_true, if_false, h0, h9, if_true] at h
        cases hj : jsonParse ((pyStrip l).drop 2) with
        | none =>
          simp only [hj] at h
          injection h with h'
          subst h'
          simp [line_delta, line_call, line_result, h0, h9, hA, hj,
            stream_marker_ne.1, stream_marker_ne.2.1, stream_marker_ne.2.2.1,
            stream_marker_ne.2.2.2.1, stream_marker_ne.2.2.2.2.1,
            stream_marker_ne.2.2.2.2.2]
        | some j =>
          simp only [hj] at h
          injection h with h'
          subst h'
          simp [line_delta, line_call, line_result, h0, h9, hA, hj,
            stream_marker_ne.1, stream_marker_ne.2.1, stream_marker_ne.2.2.1,
            stream_marker_ne.2.2.2.1, stream_marker_ne.2.2.2.2.1,
            stream_marker_ne.2.2.2.2.2]
      · by_cases hA : (pyStrip l).take 2 = ofStr "a:"
        · simp only [stepLine, he', Bool.false_eq_true, if_false, h0, h9, hA, if_true] at h
          cases hj : jsonParse ((pyStrip l).drop 2) with
          | none =>
            simp only [hj] at h
            injection h with h'
            subst h'
            simp [line_delta, line_call, line_result, h0, h9, hA, hj,
             stream_marker_ne.1, stream_marker_ne.2.1, stream_marker_ne.2.2.1,
             stream_marker_ne.2.2.2.1, stream_marker_ne.2.2.2.2.1,
             stream_marker_ne.2.2.2.2.2]
          | some j =>
            cases j with
            | obj kvs =>
              simp only [hj] at h
              cases hg : objGet (.obj kvs) (ofStr "toolCallId") with
              | none =>
                simp only [hg] at h
                injection h with h'
                subst h'
                simp [line_delta, line_call, line_result, h0, h9, hA, hj, hg,
                  stream_marker_ne.2.2.2.2.1, stream_marker_ne.2.2.2.2.2]
              | some v =>
                simp only [hg] at h
                cases ht : pyTruthy v with
                | false =>
                  simp only [ht, Bool.false_eq_true, if_false] at h
                  injection h with h'
                  subst h'
                  simp [line_delta, line_call, line_result, h0, h9, hA, hj, hg, ht,
                    stream_marker_ne.2.2.2.2.1, stream_marker_ne.2.2.2.2.2]
                | true =>
                  simp only [ht, if_true] at h
                  cases hh : jsonHashable v with
                  | false =>
                    rw [hh] at h
                    exact absurd h
                      (by simp [stream_marker_ne.2.2.2.2.1, stream_marker_ne.2.2.2.2.2])
                  | true =>
                    rw [hh] at h
                    simp only [if_true] at h
                    injection h with h'
                    subst h'
                    simp [line_delta, line_call, line_result, h0, h9, hA, hj, hg, ht,
                      stream_marker_ne.2.2.2.2.1, stream_marker_ne.2.2.2.2.2]
            | null =>
              simp [hj, stream_marker_ne.2.2.2.2.1, stream_marker_ne.2.2.2.2.2] at h
            | bool b =>
              simp [hj, stream_marker_ne.2.2.2.2.1, stream_marker_ne.2.2.2.2.2] at h
            | num n =>
              simp [hj, stream_marker_ne.2.2.2.2.1, stream_marker_ne.2.2.2.2.2] at h
            | fnum raw =>
              simp [hj, stream_marker_ne.2.2.2.2.1, stream_marker_ne.2.2.2.2.2] at h
            | str s =>
              simp [hj, stream_marker_ne.2.2.2.2.1, stream_marker_ne.2.2.2.2.2] at h
            | arr xs =>
              simp [hj, stream_marker_ne.2.2.2.2.1, stream_marker_ne.2.2.2.2.2] at h
        · simp only [stepLine, he', Bool.false_eq_true, if_false, h0, h9, hA] at h
          injection h with h'
          subst h'
          simp [line_delta, line_call, line_result, h0, h9, hA]

/-- Running the loop over all lines accumulates exactly the per-line
extractions: deltas concatenated in order, calls in encounter order, and
results newest first. -/
theorem runLines_char (lines : List (List Char)) (acc acc' : StreamAcc)
    (h : runLines acc lines = .ok acc') :
    acc' = ⟨acc.content ++ (lines.filterMap line_delta).flatten,
            acc.calls ++ lines.filterMap line_call,
            (lines.filterMap line_result).reverse ++ acc.results⟩ := by
  induction lines generalizing acc with
  | nil =>
    injection h with h'
    subst h'
    simp
  | cons l ls ih =>
    simp only [runLines] at h
    cases hs : stepLine acc l with
    | error e => rw [hs] at h; exact absurd h (by simp)
    | ok a =>
      rw [hs] at h
      have ha := stepLine_ok_char acc a l hs
      have hrec := ih a h
      subst hrec
      subst ha
      simp only [List.filterMap_cons]
      cases hd : line_delta l <;> cases hc : line_call l <;> cases hr : line_result l <;>
        simp [List.flatten, List.reverse_cons, List.append_assoc]

/-- C2: a line with an unrecognized prefix or a malformed JSON payload has
no effect: the parse of any stream equals the parse with that line
removed (so one bad line can never fail the whole parse), and parsing a
body is exactly parsing its stripped, newline-split lines. -/
theorem bad_line_no_effect (u : List Char) :
    (∀ (l1 l2 : List (List Char)) (b : List Char), bad_stream_line b = true →
        parse_from_lines u (l1 ++ b :: l2) = parse_from_lines u (l1 ++ l2)) ∧
    (∀ body : List Char,
        parse_streaming_response u body = parse_from_lines u (splitOnNl (pyStrip body))) := by
  constructor
  · intro l1 l2 b hb
    have key : ∀ acc, runLines acc (l1 ++ b :: l2) = runLines acc (l1 ++ l2) := by
      intro acc
      induction l1 generalizing acc with
      | nil => simp [runLines, stepLine_bad acc b hb]
      | cons x xs ih =>
        simp only [List.cons_append, runLines]
        cases stepLine acc x with
        | error e => rfl
        | ok a => exact ih a
    simp only [parse_from_lines, key]
  · intro body
    rfl

/-- Witness for C2: dropping the bad line `x:junk` from a two-line stream
leaves the parse unchanged. -/
theorem bad_line_no_effect_witness :
    parse_from_lines (ofStr "u") [ofStr "0:\"hi\"", ofStr "x:junk"] =
      parse_from_lines (ofStr "u") [ofStr "0:\"hi\""] :=
  (bad_line_no_effect (ofStr "u")).1 [ofStr "0:\"hi\""] [] (ofStr "x:junk") (by decide)

/-! ## Dict-update lemmas and the merge characterization -/

theorem getKv_setKv_same (kvs : List (List Char × Json)) (k : List Char) (v : Json) :
    getKv (setKv kvs k v) k = some v := by
  induction kvs with
  | nil => simp [setKv, getKv]
  | cons hd tl ih =>
    obtain ⟨k', v'⟩ := hd
    by_cases h : k' = k <;> simp [setKv, getKv, h, ih]

theorem getKv_setKv_other (kvs : List (List Char × Json)) (k k' : List Char) (v : Json)
    (h : k' ≠ k) : getKv (setKv kvs k v) k' = getKv kvs k' := by
  have h' : ¬ k = k' := fun he => h he.symm
  induction kvs with
  | nil => simp [setKv, getKv, h']
  | cons hd tl ih =>
    obtain ⟨k2, v2⟩ := hd
    by_cases h2 : k2 = k
    · subst h2
      simp [setKv, getKv, h']
    · simp [setKv, getKv, h2, ih]

theorem isObj_objSet (j : Json) (k : List Char) (v : Json) (h : j.isObj) :
    (objSet j k v).isObj := by
  cases j <;> simp [Json.isObj, objSet] at *

theorem objGet_objSet_same (j : Json) (k : List Char) (v : Json) (h : j.isObj) :
    objGet (objSet j k v) k = some v := by
  cases j <;> simp [Json.isObj, objSet, objGet, getKv_setKv_same] at *

theorem objGet_objSet_other (j : Json) (k k' : List Char) (v : Json) (h : k' ≠ k) :
    objGet (objSet j k v) k' = objGet j k' := by
  cases j <;> simp [objSet, objGet, getKv_setKv_other _ _ _ _ h]

/-- On a call with a matching result, `mergeTotal` marks `completed` and
attaches the result record's `result` field. -/
theorem mergeTotal_completed (rs : List (Json × Json)) (tc rd : Json) (hobj : tc.isObj)
    (h : lookupResult rs (objGet tc (ofStr "toolCallId")) = some rd) :
    objGet (mergeTotal rs tc) (ofStr "state") = some (.str (ofStr "completed")) ∧
    objGet (mergeTotal rs tc) (ofStr "result") = some (objGetD rd (ofStr "result") (.obj [])) := by
  constructor
  · simp only [mergeTotal, h]
    exact objGet_objSet_same _ _ _ (isObj_objSet _ _ _ hobj)
  · simp only [mergeTotal, h]
    rw [objGet_objSet_other _ _ _ _ (by decide : ofStr "result" ≠ ofStr "state")]
    exact objGet_objSet_same _ _ _ hobj

/-- On a call with no matching result, `mergeTotal` marks `pending` and
leaves the call's own `result` field (usually absent) untouched. -/
theorem mergeTotal_pending (rs : List (Json × Json)) (tc : Json) (hobj : tc.isObj)
    (h : lookupResult rs (objGet tc (ofStr "toolCallId")) = none) :
    objGet (mergeTotal rs tc) (ofStr "state") = some (.str (ofStr "pending")) ∧
    objGet (mergeTotal rs tc) (ofStr "result") = objGet tc (ofStr "result") := by
  constructor
  · simp only [mergeTotal, h]
    exact objGet_objSet_same _ _ _ hobj
  · simp only [mergeTotal, h]
    exact objGet_objSet_other _ _ _ _ (by decide : ofStr "result" ≠ ofStr "state")

/-- A successful merge loop merges each collected call in order (and all
collected calls were objects, or the loop would have raised). -/
theorem mergeAll_ok_char (rs : List (Json × Json)) (cs ts : List Json)
    (h : mergeAll rs cs = .ok ts) :
    ts = cs.map (mergeTotal rs) ∧ ∀ c ∈ cs, c.isObj := by
  induction cs generalizing ts with
  | nil =>
    injection h with h'
    subst h'
    simp
  | cons c cs' ih =>
    simp only [mergeAll] at h
    cases hm : mergeOne rs c with
    | error e => rw [hm] at h; exact absurd h (by simp)
    | ok t =>
      rw [hm] at h
      cases hrest : mergeAll rs cs' with
      | error e => rw [hrest] at h; exact absurd h (by simp)
      | ok ts' =>
        rw [hrest] at h
        injection h with h'
        subst h'
        obtain ⟨hmap, hobjs⟩ := ih ts' hrest
        have hc : c.isObj ∧ t = mergeTotal rs c := by
          cases c with
          | obj kvs =>
            refine ⟨trivial, ?_⟩
            simp only [mergeOne, mergeTotal] at hm ⊢
            cases hg : objGet (.obj kvs) (ofStr "toolCallId") with
            | none =>
              simp only [hg, lookupResult] at hm ⊢
              injection hm with h''
              exact h''.symm
            | some v =>
              simp only [hg] at hm ⊢
              cases hh : jsonHashable v with
              | false =>
                simp only [hh, Bool.false_eq_true, if_false] at hm
                exact absurd hm (by simp)
              | true =>
                simp only [hh, if_true] at hm
                cases hl : lookupResult rs (some v) with
                | none =>
                  simp only [hl] at hm ⊢
                  injection hm with h''
                  exact h''.symm
                | some rd =>
                  simp only [hl] at hm ⊢
                  injection hm with h''
                  exact h''.symm
          | null => simp [mergeOne] at hm
          | bool b => simp [mergeOne] at hm
          | num n => simp [mergeOne] at hm
          | fnum raw => simp [mergeOne] at hm
          | str s => simp [mergeOne] at hm
          | arr xs => simp [mergeOne] at hm
        refine ⟨?_, ?_⟩
        · rw [List.map_cons, ← hmap, hc.2]
        · intro x hx
          rcases List.mem_cons.mp hx with hx | hx
          · subst hx; exact hc.1
          · exact hobjs x hx

/-- C1 (amended): on every successfully parsed body the merged output has
one entry per `9:` call, in encounter order, each merged from the call by
`mergeTotal`; a call whose `toolCallId` matches a stored `a:` result comes
out completed with that result's `result` field attached, and a call with
no match comes out pending with the merge attaching no result payload —
its `result` field is whatever the call record itself carried (absent when
the call carried none). -/
theorem parse_streaming_merge (u body : List Char) (out : ParseResult)
    (h : parse_streaming_response u body = .ok out) :
    out.toolInvocations =
      (stream_calls (splitOnNl (pyStrip body))).map
        (mergeTotal (stream_results (splitOnNl (pyStrip body)))) ∧
    ∀ tc ∈ stream_calls (splitOnNl (pyStrip body)),
      tc.isObj ∧
      (∀ rd : Json,
        lookupResult (stream_results (splitOnNl (pyStrip body)))
            (objGet tc (ofStr "toolCallId")) = some rd →
          objGet (mergeTotal (stream_results (splitOnNl (pyStrip body))) tc) (ofStr "state") =
            some (.str (ofStr "completed")) ∧
          objGet (mergeTotal (stream_results (splitOnNl (pyStrip body))) tc) (ofStr "result") =
            some (objGetD rd (ofStr "result") (.obj []))) ∧
      (lookupResult (stream_results (splitOnNl (pyStrip body)))
            (objGet tc (ofStr "toolCallId")) = none →
          objGet (mergeTotal (stream_results (splitOnNl (pyStrip body))) tc) (ofStr "state") =
            some (.str (ofStr "pending")) ∧
          objGet (mergeTotal (stream_results (splitOnNl (pyStrip body))) tc) (ofStr "result") =
            objGet tc (ofStr "result")) := by
  simp only [parse_streaming_response, parse_from_lines] at h
  cases hrun : runLines ⟨[], [], []⟩ (splitOnNl (pyStrip body)) with
  | error e => rw [hrun] at h; exact absurd h (by simp)
  | ok acc =>
    simp only [hrun] at h
    cases hm : mergeAll acc.results acc.calls with
    | error e => simp only [hm] at h; exact absurd h (by simp)
    | ok tools =>
      simp only [hm] at h
      injection h with h'
      have hacc := runLines_char _ _ _ hrun
      have hcalls : acc.calls = stream_calls (splitOnNl (pyStrip body)) := by
        rw [hacc]; simp [stream_calls]
      have hres : acc.results = stream_results (splitOnNl (pyStrip body)) := by
        rw [hacc]; simp [stream_results]
      obtain ⟨hmap, hobjs⟩ := mergeAll_ok_char _ _ _ hm
      constructor
      · rw [← h']
        show tools = _
        rw [hmap, hcalls, hres]
      · intro tc htc
        have hobj := hobjs tc (by rw [hcalls]; exact htc)
        exact ⟨hobj,
          fun rd hrd => mergeTotal_completed _ _ _ hobj hrd,
          fun hn => mergeTotal_pending _ _ hobj hn⟩

/-- Witness for the amended C1 on `mwBody`: call `x` merges completed with
its result, call `y` merges pending. -/
theorem parse_streaming_merge_witness :
    mwOut.toolInvocations =
      (stream_calls (splitOnNl (pyStrip mwBody))).map
        (mergeTotal (stream_results (splitOnNl (pyStrip mwBody)))) ∧
    ∀ tc ∈ stream_calls (splitOnNl (pyStrip mwBody)),
      tc.isObj ∧
      (∀ rd : Json,
        lookupResult (stream_results (splitOnNl (pyStrip mwBody)))
            (objGet tc (ofStr "toolCallId")) = some rd →
          objGet (mergeTotal (stream_results (splitOnNl (pyStrip mwBody))) tc) (ofStr "state") =
            some (.str (ofStr "completed")) ∧
          objGet (mergeTotal (stream_results (splitOnNl (pyStrip mwBody))) tc) (ofStr "result") =
            some (objGetD rd (ofStr "result") (.obj []))) ∧
      (lookupResult (stream_results (splitOnNl (pyStrip mwBody)))
            (objGet tc (ofStr "toolCallId")) = none →
          objGet (mergeTotal (stream_results (splitOnNl (pyStrip mwBody))) tc) (ofStr "state") =
            some (.str (ofStr "pending")) ∧
          objGet (mergeTotal (stream_results (splitOnNl (pyStrip mwBody))) tc) (ofStr "result") =
            objGet tc (ofStr "result")) :=
  parse_streaming_merge [] mwBody mwOut (by rfl)

/-- Counterexample to C1 as stated: the body consisting of the single line
`9:{"toolCallId":"x","result":5}` parses successfully, its one tool call
matches no `a:` result, and the merged invocation carries state `pending`
together with a result payload (`result: 5`), contradicting "appears with
state 'pending' and no result payload". -/
theorem pending_call_with_result_payload :
    parse_streaming_response []
        (ofStr "9:\x7b\x22toolCallId\x22:\x22x\x22,\x22result\x22:5\x7d") =
      .ok ⟨some (assistantMessage [] []
              [.obj [(ofStr "toolCallId", .str (ofStr "x")), (ofStr "result", .num 5),
                     (ofStr "state", .str (ofStr "pending"))]]), [],
           [.obj [(ofStr "toolCallId", .str (ofStr "x")), (ofStr "result", .num 5),
                  (ofStr "state", .str (ofStr "pending"))]]⟩ ∧
    objGet (.obj [(ofStr "toolCallId", .str (ofStr "x")), (ofStr "result", .num 5),
                  (ofStr "state", .str (ofStr "pending"))]) (ofStr "state") =
      some (.str (ofStr "pending")) ∧
    objGet (.obj [(ofStr "toolCallId", .str (ofStr "x")), (ofStr "result", .num 5),
                  (ofStr "state", .str (ofStr "pending"))]) (ofStr "result") =
      some (.num 5) := by
  refine ⟨by rfl, by rfl, by rfl⟩

/-! ## Length bounds: a decoded `0:` delta is strictly shorter than its
line, which drives the reparse analysis of the idempotence claim. -/

theorem length_dropWhile_le (p : Char → Bool) (l : List Char) :
    (l.dropWhile p).length ≤ l.length := by
  induction l with
  | nil => simp
  | cons a t ih => by_cases h : p a <;> (simp [List.dropWhile, h]; try omega)

/-- Decoding a JSON string body consumes at least one character (the
closing quote) beyond the decoded text: every escape is longer than what
it denotes. -/
theorem parseJStr_length : ∀ (f : Nat) (cs s rest : List Char),
    parseJStr f cs = some (s, rest) → s.length + 1 + rest.length ≤ cs.length := by
  intro f
  induction f with
  | zero => intro cs s rest h; simp [parseJStr] at h
  | succ f ih =>
    intro cs s rest h
    simp only [parseJStr] at h
    repeat' split at h
    all_goals try (exfalso; exact Option.noConfusion h)
    all_goals (injection h with h'; injection h' with hs hr; subst hs; subst hr)
    all_goals simp
    all_goals try omega
    all_goals (rename_i heq; have := ih _ _ _ heq; omega)

theorem numJson_not_str (sgn : Bool) (ip fp ex : List Char) :
    ∀ s, numJson sgn ip fp ex ≠ .str s := by
  intro s
  unfold numJson
  split
  · exact fun hcon => Json.noConfusion hcon
  · exact fun hcon => Json.noConfusion hcon

theorem parseNumberCore_not_str (sgn : Bool) (cs1 : List Char) (j : Json) (rest : List Char)
    (h : parseNumberCore sgn cs1 = some (j, rest)) : ∀ s, j ≠ .str s := by
  intro s
  simp only [parseNumberCore] at h
  split at h
  · injection h with h'
    injection h' with hj hr
    subst hj
    exact fun hcon => Json.noConfusion hcon
  · split at h
    · exact Option.noConfusion h
    · split at h
      · exact Option.noConfusion h
      · injection h with h'
        injection h' with hj hr
        subst hj
        exact numJson_not_str _ _ _ _ s

theorem parseNumber_not_str (cs : List Char) (j : Json) (rest : List Char)
    (h : parseNumber cs = some (j, rest)) : ∀ s, j ≠ .str s := by
  simp only [parseNumber] at h
  split at h
  · exact parseNumberCore_not_str _ _ _ _ h
  · exact parseNumberCore_not_str _ _ _ _ h

/-- A JSON value that decodes to a string costs at least its two quotes. -/
theorem parseJVal_str_length (f : Nat) (cs s rest : List Char)
    (h : parseJVal f cs = some (.str s, rest)) : s.length + 2 + rest.length ≤ cs.length := by
  cases f with
  | zero => simp [parseJVal] at h
  | succ f =>
    simp only [parseJVal] at h
    repeat' split at h
    all_goals try (exfalso; exact Option.noConfusion h)
    all_goals try simp at h
    all_goals try (exfalso; exact (parseNumber_not_str _ _ _ h s rfl).elim)
    rename_i hdrop xo s1 rest1 hstr
    obtain ⟨rfl, rfl⟩ := h
    have h1 := parseJStr_length _ _ _ _ hstr
    have h2 : (List.dropWhile isJws cs).length ≤ cs.length := length_dropWhile_le _ _
    rw [hdrop] at h2
    simp only [List.length_cons] at h2
    omega

/-- Parsing a JSON string value costs at least its two quotes. -/
theorem jsonParse_str_length (cs s : List Char) (h : jsonParse cs = some (.str s)) :
    s.length + 2 ≤ cs.length := by
  simp only [jsonParse] at h
  split at h
  · rename_i j rest heq
    split at h
    · injection h with h'
      subst h'
      have := parseJVal_str_length _ _ _ _ heq
      omega
    · exact Option.noConfusion h
  · exact Option.noConfusion h

theorem pyStrip_length_le (x : List Char) : (pyStrip x).length ≤ x.length := by
  simp only [pyStrip, List.length_reverse]
  calc (List.dropWhile isPySpace (List.dropWhile isPySpace x).reverse).length
      ≤ (List.dropWhile isPySpace x).reverse.length := length_dropWhile_le _ _
    _ = (List.dropWhile isPySpace x).length := List.length_reverse _
    _ ≤ x.length := length_dropWhile_le _ _

/-- A line that contributes a delta costs its `0:` prefix and the two
quotes beyond the decoded text. -/
theorem line_delta_length (l s : List Char) (h : line_delta l = some s) :
    s.length + 4 ≤ l.length := by
  simp only [line_delta] at h
  split at h
  · rename_i htake
    split at h
    · rename_i t heq
      injection h with h'
      subst h'
      have h1 := jsonParse_str_length _ _ heq
      have h2 := pyStrip_length_le l
      have h3 : ((pyStrip l).take 2).length = 2 := by rw [htake]; rfl
      have h4 : ((pyStrip l).take 2).length = min 2 (pyStrip l).length :=
        List.length_take _ _
      have h5 : ((pyStrip l).drop 2).length = (pyStrip l).length - 2 :=
        List.length_drop _ _
      omega
    · exact Option.noConfusion h
  · exact Option.noConfusion h

/-- Splitting on newlines never yields more text than the input held. -/
theorem splitOnNl_length_sum (x : List Char) :
    ((splitOnNl x).map List.length).sum ≤ x.length := by
  induction x with
  | nil => simp [splitOnNl]
  | cons c r ih =>
    simp only [splitOnNl]
    by_cases h : c = '\n'
    · simp only [if_pos h, List.map_cons, List.sum_cons, List.length_nil, List.length_cons]
      omega
    · simp only [if_neg h]
      cases hs : splitOnNl r with
      | nil => simp [List.length_cons]
      | cons hd tl =>
        rw [hs] at ih
        simp only [List.map_cons, List.sum_cons, List.length_cons] at ih ⊢
        omega

/-- The reconstructed content never exceeds the total line length. -/
theorem flatten_deltas_le (lines : List (List Char)) :
    (lines.filterMap line_delta).flatten.length ≤ (lines.map List.length).sum := by
  induction lines with
  | nil => simp
  | cons l ls ih =>
    simp only [List.filterMap_cons]
    cases hd : line_delta l with
    | none => simp only [List.map_cons, List.sum_cons]; omega
    | some s =>
      have h1 := line_delta_length _ _ hd
      simp only [List.flatten_cons, List.length_append, List.map_cons, List.sum_cons]
      omega

/-- When at least one line contributes a delta, the reconstructed content
is strictly shorter: at least the `0:` prefix and the quotes vanish. -/
theorem flatten_deltas_lt (lines : List (List Char))
    (h : lines.filterMap line_delta ≠ []) :
    (lines.filterMap line_delta).flatten.length + 4 ≤ (lines.map List.length).sum := by
  induction lines with
  | nil => simp at h
  | cons l ls ih =>
    cases hd : line_delta l with
    | none =>
      simp only [List.filterMap_cons, hd] at h ⊢
      have := ih h
      simp only [List.map_cons, List.sum_cons]
      omega
    | some s =>
      simp only [List.filterMap_cons, hd] at h ⊢
      have h1 := line_delta_length _ _ hd
      have h2 := flatten_deltas_le ls
      simp only [List.flatten_cons, List.length_append, List.map_cons, List.sum_cons]
      omega

/-- The content a successful parse reports is the concatenation of the
decoded `0:` deltas of its lines. -/
theorem parse_content_char (u body : List Char) (out : ParseResult)
    (h : parse_streaming_response u body = .ok out) :
    out.content = ((splitOnNl (pyStrip body)).filterMap line_delta).flatten := by
  simp only [parse_streaming_response, parse_from_lines] at h
  cases hrun : runLines ⟨[], [], []⟩ (splitOnNl (pyStrip body)) with
  | error e => rw [hrun] at h; exact absurd h (by simp)
  | ok acc =>
    simp only [hrun] at h
    cases hm : mergeAll acc.results acc.calls with
    | error e => simp only [hm] at h; exact absurd h (by simp)
    | ok tools =>
      simp only [hm] at h
      injection h with h'
      have hacc := runLines_char _ _ _ hrun
      rw [← h']
      show acc.content = _
      rw [hacc]
      simp

/-- C6 (amended): re-parsing the parser's own reconstructed content (when
that re-parse succeeds) reproduces the content exactly when the content is
empty; a nonempty content is strictly shortened by every decoded `0:`
delta, so it can never reproduce itself. -/
theorem reparse_content_iff (u u' body : List Char) (out out2 : ParseResult)
    (_h1 : parse_streaming_response u body = .ok out)
    (h2 : parse_streaming_response u' out.content = .ok out2) :
    out2.content = out.content ↔ out.content = [] := by
  have hc2 := parse_content_char _ _ _ h2
  constructor
  · intro heq
    by_contra hne
    have hfm : (splitOnNl (pyStrip out.content)).filterMap line_delta ≠ [] := by
      intro hf
      rw [hf] at hc2
      exact hne (heq.symm.trans hc2)
    have hlt := flatten_deltas_lt _ hfm
    have hsum := splitOnNl_length_sum (pyStrip out.content)
    have hstr := pyStrip_length_le out.content
    rw [← hc2] at hlt
    have hlen : out2.content.length = out.content.length := by rw [heq]
    omega
  · intro hempty
    rw [hempty] at h2
    have hrfl : parse_streaming_response u' [] = .ok ⟨none, [], []⟩ := rfl
    rw [hrfl] at h2
    injection h2 with h'
    rw [← h', hempty]

/-- Witness for the amended C6 on the body `0:""`, whose reconstructed
content is empty and survives the re-parse unchanged. -/
theorem reparse_content_iff_witness :
    (ParseResult.content ⟨none, [], []⟩ = ParseResult.content ⟨none, [], []⟩) ↔
      (ParseResult.content ⟨none, [], []⟩ = []) :=
  reparse_content_iff [] [] (ofStr "0:\x22\x22") ⟨none, [], []⟩ ⟨none, [], []⟩
    (by rfl) (by rfl)

/-- Counterexample to C6 as stated: the body `0:"5"` parses to content
`5`, but re-parsing `5` as a body yields the empty content, not `5`. -/
theorem reparse_content_not_idempotent :
    parse_streaming_response [] (ofStr "0:\x225\x22") =
      .ok ⟨some (assistantMessage [] ['5'] []), ['5'], []⟩ ∧
    parse_streaming_response [] ['5'] = .ok ⟨none, [], []⟩ ∧
    ([] : List Char) ≠ ['5'] :=
  ⟨rfl, rfl, by decide⟩
